import Mathlib

/-!
# GoGrooveShark: request signing, envelope, classifier, decoder, typed operations

A shallow embedding of `core.go`.  Go strings are modelled as Lean strings and turned
into bytes by UTF-8 where the code writes `[]byte(s)`.  The standard-library packages
the code consumes (`crypto/md5`, `crypto/hmac`, `encoding/json`, `net/http`) are
modelled next to the functions of the repository that call them.
-/

namespace GoGrooveShark

/-! ## Bytes, `crypto/md5`, `crypto/hmac` -/

/-- UTF-8 encoding of one character, as Go stores it in a string. -/
def utf8Char (c : Char) : List Nat :=
  let n := c.toNat
  if n < 0x80 then [n]
  else if n < 0x800 then [0xC0 + n / 64, 0x80 + n % 64]
  else if n < 0x10000 then [0xE0 + n / 4096, 0x80 + n / 64 % 64, 0x80 + n % 64]
  else [0xF0 + n / 262144, 0x80 + n / 4096 % 64, 0x80 + n / 64 % 64, 0x80 + n % 64]

/-- Conversion `[]byte(s)` of a Go string. -/
def goBytes (s : String) : List Nat := s.toList.flatMap utf8Char

/-- Length `len(s)` of a Go string, in bytes. -/
def goLen (s : String) : Nat := (goBytes s).length

/-- Per-step left-rotation amounts of MD5 (RFC 1321). -/
def md5Shifts : List Nat :=
  [7, 12, 17, 22, 7, 12, 17, 22, 7, 12, 17, 22, 7, 12, 17, 22,
   5, 9, 14, 20, 5, 9, 14, 20, 5, 9, 14, 20, 5, 9, 14, 20,
   4, 11, 16, 23, 4, 11, 16, 23, 4, 11, 16, 23, 4, 11, 16, 23,
   6, 10, 15, 21, 6, 10, 15, 21, 6, 10, 15, 21, 6, 10, 15, 21]

/-- Sine-derived additive constants of MD5 (RFC 1321). -/
def md5Consts : List Nat :=
  [0xd76aa478, 0xe8c7b756, 0x242070db, 0xc1bdceee, 0xf57c0faf, 0x4787c62a, 0xa8304613, 0xfd469501,
   0x698098d8, 0x8b44f7af, 0xffff5bb1, 0x895cd7be, 0x6b901122, 0xfd987193, 0xa679438e, 0x49b40821,
   0xf61e2562, 0xc040b340, 0x265e5a51, 0xe9b6c7aa, 0xd62f105d, 0x02441453, 0xd8a1e681, 0xe7d3fbc8,
   0x21e1cde6, 0xc33707d6, 0xf4d50d87, 0x455a14ed, 0xa9e3e905, 0xfcefa3f8, 0x676f02d9, 0x8d2a4c8a,
   0xfffa3942, 0x8771f681, 0x6d9d6122, 0xfde5380c, 0xa4beea44, 0x4bdecfa9, 0xf6bb4b60, 0xbebfbc70,
   0x289b7ec6, 0xeaa127fa, 0xd4ef3085, 0x04881d05, 0xd9d4d039, 0xe6db99e5, 0x1fa27cf8, 0xc4ac5665,
   0xf4292244, 0x432aff97, 0xab9423a7, 0xfc93a039, 0x655b59c3, 0x8f0ccc92, 0xffeff47d, 0x85845dd1,
   0x6fa87e4f, 0xfe2ce6e0, 0xa3014314, 0x4e0811a1, 0xf7537e82, 0xbd3af235, 0x2ad7d2bb, 0xeb86d391]

/-- Modulus of 32-bit unsigned arithmetic. -/
def w32 : Nat := 4294967296

/-- Rotate a 32-bit word left by `c` bits. -/
def rotl32 (x c : Nat) : Nat := ((x <<< c) ||| (x >>> (32 - c))) % w32

/-- Bitwise complement of a 32-bit word. -/
def not32 (x : Nat) : Nat := (w32 - 1) - x % w32

/-- The four chaining words of MD5. -/
structure MD5State where
  a : Nat
  b : Nat
  c : Nat
  d : Nat
deriving DecidableEq

/-- Initial chaining value of MD5. -/
def md5Init : MD5State := ⟨0x67452301, 0xefcdab89, 0x98badcfe, 0x10325476⟩

/-- Step `i` (of 64) of the MD5 compression function on the message words `m`. -/
def md5Step (m : List Nat) (s : MD5State) (i : Nat) : MD5State :=
  let f :=
    if i < 16 then (s.b &&& s.c) ||| (not32 s.b &&& s.d)
    else if i < 32 then (s.d &&& s.b) ||| (not32 s.d &&& s.c)
    else if i < 48 then s.b ^^^ s.c ^^^ s.d
    else s.c ^^^ (s.b ||| not32 s.d)
  let g :=
    if i < 16 then i
    else if i < 32 then (5 * i + 1) % 16
    else if i < 48 then (3 * i + 5) % 16
    else (7 * i) % 16
  let t := (s.a + f + md5Consts.getD i 0 + m.getD g 0) % w32
  ⟨s.d, (s.b + rotl32 t (md5Shifts.getD i 0)) % w32, s.b, s.c⟩

/-- Little-endian decoding of a byte list into 32-bit words. -/
def leWords : List Nat → List Nat
  | b0 :: b1 :: b2 :: b3 :: rest =>
    (b0 % 256 + 256 * (b1 % 256) + 65536 * (b2 % 256) + 16777216 * (b3 % 256)) :: leWords rest
  | _ => []

/-- MD5 compression of one 64-byte block into the chaining state. -/
def md5Block (s : MD5State) (block : List Nat) : MD5State :=
  let m := leWords block
  let r := (List.range 64).foldl (md5Step m) s
  ⟨(s.a + r.a) % w32, (s.b + r.b) % w32, (s.c + r.c) % w32, (s.d + r.d) % w32⟩

/-- The `k` low bytes of `n`, least significant first. -/
def leBytes (n : Nat) : Nat → List Nat
  | 0 => []
  | k + 1 => (n % 256) :: leBytes (n / 256) k

/-- MD5 padding: a `0x80` byte, zeros up to 56 mod 64, then the bit length on 8 bytes. -/
def md5Pad (msg : List Nat) : List Nat :=
  msg ++ [0x80] ++ List.replicate ((119 - msg.length % 64) % 64) 0
    ++ leBytes (8 * msg.length % 2 ^ 64) 8

/-- Fold the compression function over `n` consecutive 64-byte blocks. -/
def md5Blocks : Nat → MD5State → List Nat → MD5State
  | 0, s, _ => s
  | n + 1, s, bs => md5Blocks n (md5Block s (bs.take 64)) (bs.drop 64)

/-- MD5 digest (16 bytes) of a byte string: `md5.Sum`. -/
def md5Sum (msg : List Nat) : List Nat :=
  let p := md5Pad msg
  let s := md5Blocks (p.length / 64) md5Init p
  leBytes s.a 4 ++ leBytes s.b 4 ++ leBytes s.c 4 ++ leBytes s.d 4

/-- A running hash (`hash.Hash`): the digest function and block size of its algorithm and
the bytes written so far. -/
structure Hash where
  sum : List Nat → List Nat
  blockSize : Nat
  written : List Nat

/-- Fresh MD5 hash: `md5.New()`. -/
def md5New : Hash := ⟨md5Sum, 64, []⟩

/-- Method `Write` of a hash. -/
def Hash.Write (d : Hash) (p : List Nat) : Hash := { d with written := d.written ++ p }

/-- Method `Sum` of a hash: appends the digest of what was written to `b`. -/
def Hash.Sum (d : Hash) (b : List Nat) : List Nat := b ++ d.sum d.written

/-- Method `Reset` of a hash. -/
def Hash.Reset (d : Hash) : Hash := { d with written := [] }

/-- The `hmac` struct of `crypto/hmac`. -/
structure hmac where
  opad : List Nat
  ipad : List Nat
  outer : Hash
  inner : Hash

/-- Copy of `key` into a zeroed buffer of `n` bytes: `make([]byte, n)` then `copy`. -/
def padKey (key : List Nat) (n : Nat) : List Nat :=
  key.take n ++ List.replicate (n - key.length) 0

/-- Constructor `hmac.New(h, key)`; `h` is the hash constructor. -/
def hmacNew (h : Hash) (key : List Nat) : hmac :=
  let outer := h
  let inner := h
  let blocksize := inner.blockSize
  let keyOuter : List Nat × Hash :=
    if key.length > blocksize then
      let o := outer.Write key
      (o.Sum [], o)
    else (key, outer)
  let ipad := (padKey keyOuter.1 blocksize).map (fun b => b ^^^ 0x36)
  let opad := (padKey keyOuter.1 blocksize).map (fun b => b ^^^ 0x5c)
  { opad := opad, ipad := ipad, outer := keyOuter.2, inner := inner.Write ipad }

/-- Method `Write` of the HMAC: feeds the inner hash. -/
def hmac.Write (h : hmac) (p : List Nat) : hmac := { h with inner := h.inner.Write p }

/-- Method `Sum` of the HMAC. -/
def hmac.Sum (h : hmac) (b : List Nat) : List Nat :=
  let origLen := b.length
  let b1 := h.inner.Sum b
  let outer := (h.outer.Reset.Write h.opad).Write (b1.drop origLen)
  outer.Sum (b1.take origLen)

/-- One lowercase hexadecimal digit. -/
def hexDigit (n : Nat) : Char := Char.ofNat (if n < 10 then 48 + n else 87 + n)

/-- Formatting `fmt.Sprintf("%x", b)` of a byte slice: two lowercase hex digits per byte. -/
def hexBytes : List Nat → List Char
  | [] => []
  | b :: bs => hexDigit (b % 256 / 16) :: hexDigit (b % 16) :: hexBytes bs

/-- Formatting `fmt.Sprintf("%x", b)` as a Go string. -/
def sprintfHex (b : List Nat) : String := String.mk (hexBytes b)

/-- Signature required by all API calls (`createSignature`, core.go 414-419). -/
def createSignature (query : String) (privateKey : String) : String :=
  let h := hmacNew md5New (goBytes privateKey)
  let h := h.Write (goBytes query)
  sprintfHex (h.Sum [])

/-- HMAC as RFC 2104 defines it over a hash `H` of block size `B`:
`H((K0 xor opad) || H((K0 xor ipad) || text))`, where `K0` is the key (hashed first when
longer than a block) padded with zeros to the block size. -/
def hmacRFC (H : List Nat → List Nat) (B : Nat) (key text : List Nat) : List Nat :=
  let k0 := padKey (if key.length > B then H key else key) B
  H (k0.map (fun b => b ^^^ 0x5c) ++ H (k0.map (fun b => b ^^^ 0x36) ++ text))

/-- HMAC-MD5. -/
def hmacMD5 (key text : List Nat) : List Nat := hmacRFC md5Sum 64 key text

/-- Lowercase hexadecimal digit characters. -/
def isLowerHex (c : Char) : Bool := ('0' ≤ c ∧ c ≤ '9') || ('a' ≤ c ∧ c ≤ 'f')

/-! ## `encoding/json`: values and decoding into Go types -/

/-- A JSON value.  A number literal without fraction and exponent is `int`; one with a
fraction or an exponent is `real` and keeps its text. -/
inductive JSON where
  | null
  | bool (b : Bool)
  | int (i : Int)
  | real (lit : String)
  | str (s : String)
  | arr (elems : List JSON)
  | obj (members : List (String × JSON))

/-- Errors of `json.Unmarshal`: a body that is not JSON (`*json.SyntaxError`), or a value
that does not fit the Go type it is decoded into (`*json.UnmarshalTypeError`). -/
inductive DecodeErr where
  | syntaxError
  | unmarshalType
deriving DecidableEq

/-- The decoder keeps the earliest error and goes on decoding (`decodeState.saveError`). -/
def saveError (saved new : Option DecodeErr) : Option DecodeErr :=
  match saved with
  | some e => some e
  | none => new

/-- A Go type that `encoding/json` decodes into: its zero value and the effect of decoding
a JSON value into an existing value of the type. -/
class GoType (α : Type) where
  zero : α
  decode : JSON → α → α × Option DecodeErr

/-- Decoding into a Go `bool`. -/
def decodeBool : JSON → Bool → Bool × Option DecodeErr
  | .null, v => (v, none)
  | .bool b, _ => (b, none)
  | _, v => (v, some .unmarshalType)

/-- Decoding into a Go `int` (64 bits): the literal must be an integer in range. -/
def decodeInt : JSON → Int → Int × Option DecodeErr
  | .null, v => (v, none)
  | .int i, v =>
    if -9223372036854775808 ≤ i ∧ i ≤ 9223372036854775807 then (i, none)
    else (v, some .unmarshalType)
  | _, v => (v, some .unmarshalType)

/-- Decoding into a Go `string`. -/
def decodeString : JSON → String → String × Option DecodeErr
  | .null, v => (v, none)
  | .str s, _ => (s, none)
  | _, v => (v, some .unmarshalType)

instance : GoType Bool := ⟨false, decodeBool⟩
instance : GoType Int := ⟨0, decodeInt⟩
instance : GoType String := ⟨"", decodeString⟩

/-- A Go slice `[]α`: its elements, and the elements of its backing array between its
length and its capacity (`spare`), which the decoder writes into when a later array of
the same body grows the slice again. -/
structure Slice (α : Type) where
  elems : List α
  spare : List α
deriving DecidableEq

/-- The nil slice. -/
def Slice.nil {α : Type} : Slice α := ⟨[], []⟩

/-- Element-wise decoding of a JSON array: element `i` is decoded into the value already
in the backing array at `i`, or into a zero value past its capacity. -/
def decodeElems {α : Type} [GoType α] : List JSON → List α → List α × Option DecodeErr
  | [], _ => ([], none)
  | j :: js, backing =>
    let r := GoType.decode j (backing.headD GoType.zero)
    let rs := decodeElems js backing.tail
    (r.1 :: rs.1, saveError r.2 rs.2)

/-- Decoding into a Go slice (`decodeState.array`): `null` gives the nil slice, an array
is decoded element by element, the slice is cut to the array length, and an empty array
gives a fresh empty slice. -/
def decodeSlice {α : Type} [GoType α] : JSON → Slice α → Slice α × Option DecodeErr
  | .null, _ => (Slice.nil, none)
  | .arr js, s =>
    let backing := s.elems ++ s.spare
    let r := decodeElems js backing
    (⟨r.1, if js.isEmpty then [] else backing.drop js.length⟩, r.2)
  | _, s => (s, some .unmarshalType)

instance {α : Type} [GoType α] : GoType (Slice α) := ⟨Slice.nil, decodeSlice⟩

/-- Case folding of the decoder's field matching, for names made of ASCII letters: ASCII
upper case, the Kelvin sign and the long s fold to ASCII lower case. -/
def foldChar (c : Char) : Char :=
  if 'A' ≤ c ∧ c ≤ 'Z' then Char.ofNat (c.toNat + 32)
  else if c = Char.ofNat 0x212A then 'k'
  else if c = Char.ofNat 0x17F then 's'
  else c

/-- Case-insensitive match of an object key against a field name. -/
def equalFold (name key : String) : Bool :=
  name.toList.map foldChar == key.toList.map foldChar

/-- A struct field known to the decoder: its JSON name (the `json` tag, or the Go name)
and the decoding of a value into that field of a struct `σ`. -/
structure Field (σ : Type) where
  name : String
  store : JSON → σ → σ × Option DecodeErr

/-- Field for a member of type `β`, given how to read and write it. -/
def Field.of {σ β : Type} [GoType β] (name : String) (get : σ → β) (set : σ → β → σ) :
    Field σ :=
  ⟨name, fun j s => let r := GoType.decode j (get s); (set s r.1, r.2)⟩

/-- The field an object key designates: an exact match, else the first match up to case. -/
def findField {σ : Type} (fields : List (Field σ)) (key : String) : Option (Field σ) :=
  match fields.find? (fun f => f.name == key) with
  | some f => some f
  | none => fields.find? (fun f => equalFold f.name key)

/-- Decoding of the members of an object into a struct, in the order of the text; a key
that matches no field is skipped. -/
def decodeMembers {σ : Type} (fields : List (Field σ)) :
    List (String × JSON) → σ × Option DecodeErr → σ × Option DecodeErr
  | [], acc => acc
  | (k, v) :: rest, acc =>
    match findField fields k with
    | none => decodeMembers fields rest acc
    | some f =>
      let r := f.store v acc.1
      decodeMembers fields rest (r.1, saveError acc.2 r.2)

/-- Decoding into a Go struct (`decodeState.object`): `null` changes nothing, an object
sets the fields its keys designate, anything else is a type error and changes nothing. -/
def decodeStruct {σ : Type} (fields : List (Field σ)) : JSON → σ → σ × Option DecodeErr
  | .null, s => (s, none)
  | .obj kvs, s => decodeMembers fields kvs (s, none)
  | _, s => (s, some .unmarshalType)

/-- Assignment `m[k] = v` on a Go map kept as a list of bindings. -/
def mapSet {β : Type} : List (String × β) → String → β → List (String × β)
  | [], k, v => [(k, v)]
  | (k0, v0) :: rest, k, v => if k0 = k then (k, v) :: rest else (k0, v0) :: mapSet rest k v

/-- Decoding of the members of an object into a `map[string]string`: each value is
decoded into a fresh string and stored under its key. -/
def decodeMapMembers :
    List (String × JSON) → List (String × String) × Option DecodeErr →
      List (String × String) × Option DecodeErr
  | [], acc => acc
  | (k, v) :: rest, acc =>
    let r := decodeString v ""
    decodeMapMembers rest (mapSet acc.1 k r.1, saveError acc.2 r.2)

/-- A `map[string]string`; `none` is the nil map. -/
structure StringMap where
  bindings : Option (List (String × String))
deriving DecidableEq

/-- Decoding into a `map[string]string`. -/
def decodeStringMap : JSON → StringMap → StringMap × Option DecodeErr
  | .null, _ => (⟨none⟩, none)
  | .obj kvs, m =>
    let r := decodeMapMembers kvs (m.bindings.getD [], none)
    (⟨some r.1⟩, r.2)
  | _, m => (m, some .unmarshalType)

instance : GoType StringMap := ⟨⟨none⟩, decodeStringMap⟩

/-- Function `json.Unmarshal(data, &v)`: a body that is not valid JSON is rejected before
anything is stored; otherwise the value is decoded into `v` and the earliest type error,
if any, is returned.  The JSON grammar itself is the argument `parse`. -/
def jsonUnmarshal {α : Type} [GoType α] (parse : String → Option JSON) (data : String)
    (v : α) : α × Option DecodeErr :=
  match parse data with
  | none => (v, some .syntaxError)
  | some j => GoType.decode j v

/-! ## Response types of core.go -/

/-- Struct `apiError`. -/
structure apiError where
  Code : Int
  Message : String
deriving DecidableEq

instance : GoType apiError :=
  ⟨⟨0, ""⟩, decodeStruct
    [Field.of "code" (·.Code) (fun s v => { s with Code := v }),
     Field.of "message" (·.Message) (fun s v => { s with Message := v })]⟩

/-- Struct `ApiErrorResponse`. -/
structure ApiErrorResponse where
  Errors : Slice apiError
deriving DecidableEq

/-- The fields of `ApiErrorResponse` the decoder knows. -/
def ApiErrorResponse.fields : List (Field ApiErrorResponse) :=
  [Field.of "errors" (·.Errors) (fun s v => { s with Errors := v })]

instance : GoType ApiErrorResponse := ⟨⟨Slice.nil⟩, decodeStruct ApiErrorResponse.fields⟩

/-- Method `(*ApiErrorResponse).Error`: all messages, each followed by a newline. -/
def ApiErrorResponse.Error (err : ApiErrorResponse) : String :=
  err.Errors.elems.foldl (fun strRet element => strRet ++ (element.Message ++ "\n")) ""

/-- Struct `SongInfo`. -/
structure SongInfo where
  SongID : Int
  SongName : String
  ArtistID : Int
  ArtistName : String
  AlbumID : Int
  AlbumName : String
  CoverArtFileName : String
  Popularity : String
  IsLowBitrateAvailable : Bool
  IsVerified : Bool
  Flags : Int
deriving DecidableEq

instance : GoType SongInfo :=
  ⟨⟨0, "", 0, "", 0, "", "", "", false, false, 0⟩, decodeStruct
    [Field.of "SongID" (·.SongID) (fun s v => { s with SongID := v }),
     Field.of "SongName" (·.SongName) (fun s v => { s with SongName := v }),
     Field.of "ArtistID" (·.ArtistID) (fun s v => { s with ArtistID := v }),
     Field.of "ArtistName" (·.ArtistName) (fun s v => { s with ArtistName := v }),
     Field.of "AlbumID" (·.AlbumID) (fun s v => { s with AlbumID := v }),
     Field.of "AlbumName" (·.AlbumName) (fun s v => { s with AlbumName := v }),
     Field.of "CoverArtFileName" (·.CoverArtFileName)
       (fun s v => { s with CoverArtFileName := v }),
     Field.of "Popularity" (·.Popularity) (fun s v => { s with Popularity := v }),
     Field.of "IsLowBitrateAvailable" (·.IsLowBitrateAvailable)
       (fun s v => { s with IsLowBitrateAvailable := v }),
     Field.of "IsVerified" (·.IsVerified) (fun s v => { s with IsVerified := v }),
     Field.of "Flags" (·.Flags) (fun s v => { s with Flags := v })]⟩

/-- Struct `Playlist`. -/
structure Playlist where
  PlaylistName : String
  TSModified : Int
  UserID : Int
  PlaylistDescription : String
  CoverArtFilename : String
  Songs : Slice SongInfo
deriving DecidableEq

instance : GoType Playlist :=
  ⟨⟨"", 0, 0, "", "", Slice.nil⟩, decodeStruct
    [Field.of "PlaylistName" (·.PlaylistName) (fun s v => { s with PlaylistName := v }),
     Field.of "TSModified" (·.TSModified) (fun s v => { s with TSModified := v }),
     Field.of "UserID" (·.UserID) (fun s v => { s with UserID := v }),
     Field.of "PlaylistDescription" (·.PlaylistDescription)
       (fun s v => { s with PlaylistDescription := v }),
     Field.of "CoverArtFilename" (·.CoverArtFilename)
       (fun s v => { s with CoverArtFilename := v }),
     Field.of "Songs" (·.Songs) (fun s v => { s with Songs := v })]⟩

/-- Struct `EmptyResponse`. -/
structure EmptyResponse where
  Success : Bool
deriving DecidableEq

instance : GoType EmptyResponse :=
  ⟨⟨false⟩, decodeStruct [Field.of "success" (·.Success) (fun s v => { s with Success := v })]⟩

/-- Struct `SessionResponse`. -/
structure SessionResponse where
  Success : Bool
  SessionId : String
deriving DecidableEq

instance : GoType SessionResponse :=
  ⟨⟨false, ""⟩, decodeStruct
    [Field.of "success" (·.Success) (fun s v => { s with Success := v }),
     Field.of "sessionID" (·.SessionId) (fun s v => { s with SessionId := v })]⟩

/-- Struct `User`. -/
structure User where
  UserID : Int
  Email : String
  FName : String
  LName : String
  IsPlus : Bool
  IsAnywhere : Bool
  IsPremium : Bool
  Success : Bool
deriving DecidableEq

instance : GoType User :=
  ⟨⟨0, "", "", "", false, false, false, false⟩, decodeStruct
    [Field.of "UserID" (·.UserID) (fun s v => { s with UserID := v }),
     Field.of "Email" (·.Email) (fun s v => { s with Email := v }),
     Field.of "FName" (·.FName) (fun s v => { s with FName := v }),
     Field.of "LName" (·.LName) (fun s v => { s with LName := v }),
     Field.of "IsPlus" (·.IsPlus) (fun s v => { s with IsPlus := v }),
     Field.of "IsAnywhere" (·.IsAnywhere) (fun s v => { s with IsAnywhere := v }),
     Field.of "IsPremium" (·.IsPremium) (fun s v => { s with IsPremium := v }),
     Field.of "success" (·.Success) (fun s v => { s with Success := v })]⟩

/-- Struct `PlaylistResponse`. -/
structure PlaylistResponse where
  Success : Bool
  PlaylistsTSModified : Int
  PlaylistID : Int
deriving DecidableEq

instance : GoType PlaylistResponse :=
  ⟨⟨false, 0, 0⟩, decodeStruct
    [Field.of "success" (·.Success) (fun s v => { s with Success := v }),
     Field.of "playlistsTSModified" (·.PlaylistsTSModified)
       (fun s v => { s with PlaylistsTSModified := v }),
     Field.of "playlistID" (·.PlaylistID) (fun s v => { s with PlaylistID := v })]⟩

/-- Struct `DeletePlaylistResponse`. -/
structure DeletePlaylistResponse where
  Success : Bool
  PlaylistsTSModified : Int
deriving DecidableEq

instance : GoType DeletePlaylistResponse :=
  ⟨⟨false, 0⟩, decodeStruct
    [Field.of "success" (·.Success) (fun s v => { s with Success := v }),
     Field.of "playlistsTSModified" (·.PlaylistsTSModified)
       (fun s v => { s with PlaylistsTSModified := v })]⟩

/-- Struct `resultUnmarshaller`: `resp` holds a pointer to the caller's destination; the
model keeps the destination's value. -/
structure resultUnmarshaller (α : Type) where
  resp : α

/-- Method `(*resultUnmarshaller).UnmarshalJSON`: `json.Unmarshal(b, r.resp)`, on the
text of one value of an already valid body. -/
def resultUnmarshaller.UnmarshalJSON {α : Type} [GoType α] (r : resultUnmarshaller α)
    (b : JSON) : resultUnmarshaller α × Option DecodeErr :=
  let d := GoType.decode b r.resp
  (⟨d.1⟩, d.2)

instance {α : Type} [GoType α] : GoType (resultUnmarshaller α) :=
  ⟨⟨GoType.zero⟩, fun j r => r.UnmarshalJSON j⟩

/-- Struct `responseUnmarshaller`. -/
structure responseUnmarshaller (α : Type) where
  Header : StringMap
  Result : resultUnmarshaller α

/-- The fields of `responseUnmarshaller` the decoder knows. -/
def responseUnmarshaller.fields {α : Type} [GoType α] : List (Field (responseUnmarshaller α)) :=
  [Field.of "header" (·.Header) (fun s v => { s with Header := v }),
   Field.of "result" (·.Result) (fun s v => { s with Result := v })]

instance {α : Type} [GoType α] : GoType (responseUnmarshaller α) :=
  ⟨⟨⟨none⟩, ⟨GoType.zero⟩⟩, decodeStruct responseUnmarshaller.fields⟩

/-- Struct `apiResponse`. -/
structure apiResponse where
  HttpCode : Int
  Body : String
deriving DecidableEq

/-- Values of the Go interface `error` that core.go returns. -/
inductive GoError where
  | api (e : ApiErrorResponse)
  | errorString (msg : String)
  | marshal (msg : String)
  | http (msg : String)
deriving DecidableEq

/-- The loop of `getError` (core.go 60-66): stops at the first entry with a nonzero code. -/
def getError.loop : List apiError → Bool → Bool
  | [], foundError => foundError
  | element :: rest, foundError =>
    if element.Code ≠ 0 then true else getError.loop rest foundError

/-- Method `(*apiResponse).getError` (core.go 52-73). -/
def apiResponse.getError (parse : String → Option JSON) (resp : apiResponse) :
    Option GoError :=
  let errResp : ApiErrorResponse := GoType.zero
  let r := jsonUnmarshal parse resp.Body errResp
  let errResp := r.1
  let err := r.2
  let foundError := getError.loop errResp.Errors.elems false
  if err = none ∧ foundError = true then some (GoError.api errResp) else none

/-- Method `(*apiResponse).unmarshal` (core.go 75-79): decodes the body into a
`responseUnmarshaller` that points to `resp` and drops the error of `json.Unmarshal`;
the result is the value of the destination afterwards. -/
def apiResponse.unmarshal {α : Type} [GoType α] (parse : String → Option JSON)
    (apiResp : apiResponse) (resp : α) : α :=
  let r : responseUnmarshaller α := ⟨⟨none⟩, ⟨resp⟩⟩
  (jsonUnmarshal parse apiResp.Body r).1.Result.resp

/-! ## `encoding/json`: encoding of the request envelope -/

/-- A Go value stored in the `interface{}` of a parameter or header map: the kinds core.go
stores (a string, an int, a `[]int` that may be nil, a non-nil `*int`), and
`unsupported` for a value `json.Marshal` refuses (a channel, a function). -/
inductive Any where
  | str (s : String)
  | int (i : Int)
  | intSlice (s : Option (List Int))
  | intPtr (p : Int)
  | unsupported
deriving DecidableEq

/-- Struct `apiRequestPayload`.  A map is the list of its bindings, with distinct keys;
`Parameters` may be the nil map (`none`), `Header` is always made by `apiCallEx`. -/
structure apiRequestPayload where
  Method : String
  Parameters : Option (List (String × Any))
  Header : List (String × Any)
deriving DecidableEq

/-- The double quote character. -/
def dquote : Char := Char.ofNat 34

/-- The backslash character. -/
def bslash : Char := Char.ofNat 92

/-- Escape `\uXXXX` of a code point below 65536. -/
def escapeU (n : Nat) : List Char :=
  [bslash, 'u', hexDigit (n / 4096 % 16), hexDigit (n / 256 % 16), hexDigit (n / 16 % 16),
    hexDigit (n % 16)]

/-- Encoding of one character inside a JSON string, as `json.Marshal` writes it: quote and
backslash are escaped, newline, carriage return and tab have short escapes, the other
control characters, the HTML characters and the two Unicode line separators are
written `\uXXXX`. -/
def escapeChar (c : Char) : List Char :=
  if c = dquote then [bslash, dquote]
  else if c = bslash then [bslash, bslash]
  else if c.toNat = 10 then [bslash, 'n']
  else if c.toNat = 13 then [bslash, 'r']
  else if c.toNat = 9 then [bslash, 't']
  else if c.toNat < 32 ∨ c = '<' ∨ c = '>' ∨ c = '&' ∨ c.toNat = 0x2028 ∨ c.toNat = 0x2029 then
    escapeU c.toNat
  else [c]

/-- Encoding of a Go string as a JSON string. -/
def jsonQuote (s : String) : String :=
  String.mk ([dquote] ++ s.toList.flatMap escapeChar ++ [dquote])

/-- Encoding of one value of a map. -/
def marshalAny : Any → Except GoError String
  | .str s => .ok (jsonQuote s)
  | .int i => .ok (toString i)
  | .intSlice none => .ok "null"
  | .intSlice (some l) => .ok ("[" ++ ",".intercalate (l.map toString) ++ "]")
  | .intPtr p => .ok (toString p)
  | .unsupported => .error (.marshal "json: unsupported type")

/-- Lexicographic order of byte strings. -/
def bytesLess : List Nat → List Nat → Bool
  | [], [] => false
  | [], _ :: _ => true
  | _ :: _, [] => false
  | a :: as, b :: bs => if a < b then true else if b < a then false else bytesLess as bs

/-- Comparison `a < b` of Go strings: byte by byte. -/
def stringLess (a b : String) : Bool := bytesLess (goBytes a) (goBytes b)

/-- Insertion of a binding into a list sorted by key. -/
def insertByKey (kv : String × Any) : List (String × Any) → List (String × Any)
  | [] => [kv]
  | x :: xs => if stringLess kv.1 x.1 then kv :: x :: xs else x :: insertByKey kv xs

/-- The bindings of a map in the order `json.Marshal` writes them: sorted by key. -/
def sortByKey (m : List (String × Any)) : List (String × Any) :=
  m.foldr insertByKey []

/-- Encoding of the bindings of a map, in the given order. -/
def marshalMembers : List (String × Any) → Except GoError (List String)
  | [] => .ok []
  | (k, v) :: rest =>
    match marshalAny v with
    | .error e => .error e
    | .ok ev =>
      match marshalMembers rest with
      | .error e => .error e
      | .ok es => .ok ((jsonQuote k ++ ":" ++ ev) :: es)

/-- Encoding of a non-nil map as a JSON object. -/
def marshalMap (m : List (String × Any)) : Except GoError String :=
  match marshalMembers (sortByKey m) with
  | .error e => .error e
  | .ok es => .ok ("\x7b" ++ ",".intercalate es ++ "\x7d")

/-- Function `json.Marshal(req)` for the envelope: the fields in declaration order under
their tags; a nil map is `null`; fails on a value it cannot encode. -/
def jsonMarshal (req : apiRequestPayload) : Except GoError String :=
  let params : Except GoError String :=
    match req.Parameters with
    | none => .ok "null"
    | some m => marshalMap m
  match params with
  | .error e => .error e
  | .ok ps =>
    match marshalMap req.Header with
    | .error e => .error e
    | .ok hs =>
      .ok ("\x7b" ++ jsonQuote "method" ++ ":" ++ jsonQuote req.Method ++ ","
        ++ jsonQuote "parameters" ++ ":" ++ ps ++ ","
        ++ jsonQuote "header" ++ ":" ++ hs ++ "\x7d")

/-- The parameter maps `json.Marshal` encodes: the nil map and maps without an
unsupported value. -/
def Supported (args : Option (List (String × Any))) : Prop :=
  ∀ m, args = some m → ∀ kv ∈ m, kv.2 ≠ Any.unsupported

/-! ## `net/http` -/

/-- An outgoing `http.Request`, as far as `apiCallEx` sets it. -/
structure HttpRequest where
  Method : String
  URL : String
  Body : String
  Header : List (String × String)
deriving DecidableEq

/-- What `apiCallEx` reads of an `http.Response`: the status code and the bytes
`ioutil.ReadAll` returned. -/
structure HttpResponse where
  StatusCode : Int
  Body : String
deriving DecidableEq

/-- The network behind `http.DefaultClient.Do`, over a state `σ` of the outside world:
each request yields a response or an error and a new state. -/
abbrev Transport (σ : Type) := HttpRequest → σ → Except String HttpResponse × σ

/-! ## The client -/

/-- Constant `API_HOST`. -/
def API_HOST : String := "api.grooveshark.com/ws3.php"

/-- Struct `GrooveShark`. -/
structure GrooveShark where
  secretKey : String
  publicKey : String
  sessionId : String
deriving DecidableEq

/-- Constructor `NewGrooveShark` (core.go 126-131). -/
def NewGrooveShark (key secret : String) : GrooveShark :=
  { secretKey := secret, publicKey := key, sessionId := "" }

/-- The request payload `apiCallEx` sets up (core.go 360-368). -/
def GrooveShark.requestPayload (gs : GrooveShark) (methodName : String)
    (args : Option (List (String × Any))) : apiRequestPayload :=
  let req : apiRequestPayload := { Method := methodName, Parameters := none, Header := [] }
  let req := { req with Parameters := args }
  let req := { req with Header := [] }
  let req := { req with Header := mapSet req.Header "wsKey" (Any.str gs.publicKey) }
  if goLen gs.sessionId > 0 then
    { req with Header := mapSet req.Header "sessionID" (Any.str gs.sessionId) }
  else req

/-- Method `(*GrooveShark).apiCallEx` (core.go 359-412).  The result `.ok r` stands for
the Go pair `(r, nil)` and `.error e` for `(nil, e)`.  `http.NewRequest` cannot fail on
the method and the URLs built here. -/
def GrooveShark.apiCallEx {σ : Type} (T : Transport σ) (gs : GrooveShark)
    (methodName : String) (args : Option (List (String × Any))) (secure : Bool) (w : σ) :
    Except GoError apiResponse × σ :=
  let req := gs.requestPayload methodName args
  match jsonMarshal req with
  | .error err => (.error err, w)
  | .ok postData =>
    let payload := postData
    let signature := createSignature payload gs.secretKey
    let proto := if secure then "https" else "http"
    let queryStr := "?sig=" ++ signature
    let url := proto ++ "://" ++ API_HOST ++ queryStr
    let httpReq : HttpRequest := { Method := "POST", URL := url, Body := payload, Header := [] }
    let httpReq :=
      { httpReq with Header := mapSet httpReq.Header "Content-Type" "text/plain; charset=UTF-8" }
    let httpReq := { httpReq with Header := mapSet httpReq.Header "User-Agent" "GoGrooveShark-Go" }
    match T httpReq w with
    | (.error err, w1) => (.error (GoError.http err), w1)
    | (.ok resp, w1) => (.ok { HttpCode := resp.StatusCode, Body := resp.Body }, w1)

/-- Method `(*GrooveShark).apiCall` (core.go 351-353). -/
def GrooveShark.apiCall {σ : Type} (T : Transport σ) (gs : GrooveShark) (methodName : String)
    (args : Option (List (String × Any))) (w : σ) : Except GoError apiResponse × σ :=
  gs.apiCallEx T methodName args false w

/-- Method `(*GrooveShark).apiCallSecure` (core.go 355-357). -/
def GrooveShark.apiCallSecure {σ : Type} (T : Transport σ) (gs : GrooveShark)
    (methodName : String) (args : Option (List (String × Any))) (w : σ) :
    Except GoError apiResponse × σ :=
  gs.apiCallEx T methodName args true w

/-- Method `(*GrooveShark).GetPlaylist` (core.go 133-154); `limit` is a `*int`. -/
def GrooveShark.GetPlaylist {σ : Type} (parse : String → Option JSON) (T : Transport σ)
    (gs : GrooveShark) (playlistID : String) (limit : Option Int) (w : σ) :
    Except GoError Playlist × σ :=
  let args : List (String × Any) := []
  let args := mapSet args "playlistID" (Any.str playlistID)
  let args :=
    match limit with
    | some l => mapSet args "limit" (Any.intPtr l)
    | none => args
  match gs.apiCall T "getPlaylist" (some args) w with
  | (.error err, w1) => (.error err, w1)
  | (.ok resp, w1) =>
    match resp.getError parse with
    | some err => (.error err, w1)
    | none =>
      let playlist : Playlist := GoType.zero
      let playlist := resp.unmarshal parse playlist
      (.ok playlist, w1)

/-- A `*string` handed back to the caller: the address of the client's `sessionId`
field, or the address of a fresh variable holding `v`. -/
inductive StringPtr where
  | sessionIdOf
  | fresh (v : String)
deriving DecidableEq

/-- Dereference of a returned `*string` in a client state. -/
def StringPtr.deref (gs : GrooveShark) : StringPtr → String
  | .sessionIdOf => gs.sessionId
  | .fresh v => v

/-- Method `(*GrooveShark).StartSession` (core.go 161-184); returns the client state
after the call as well. -/
def GrooveShark.StartSession {σ : Type} (parse : String → Option JSON) (T : Transport σ)
    (gs : GrooveShark) (w : σ) : Except GoError StringPtr × GrooveShark × σ :=
  match gs.apiCallSecure T "startSession" none w with
  | (.error err, w1) => (.error err, gs, w1)
  | (.ok resp, w1) =>
    match resp.getError parse with
    | some err => (.error err, gs, w1)
    | none =>
      let session : SessionResponse := GoType.zero
      let session := resp.unmarshal parse session
      if !session.Success then (.error (GoError.errorString "Error starting session"), gs, w1)
      else
        let gs := { gs with sessionId := session.SessionId }
        (.ok StringPtr.sessionIdOf, gs, w1)

/-- Method `(*GrooveShark).Authenticate` (core.go 197-232); returns the client state
after the call as well. -/
def GrooveShark.Authenticate {σ : Type} (parse : String → Option JSON) (T : Transport σ)
    (gs : GrooveShark) (login password : String) (w : σ) :
    Except GoError User × GrooveShark × σ :=
  let md5Hasher := md5New
  let md5Hasher := md5Hasher.Write (goBytes password)
  let passwordHash := sprintfHex (md5Hasher.Sum [])
  let started : Option GoError × GrooveShark × σ :=
    if goLen gs.sessionId = 0 then
      match gs.StartSession parse T w with
      | (.error err, gs1, w1) => (some err, gs1, w1)
      | (.ok _, gs1, w1) => (none, gs1, w1)
    else (none, gs, w)
  match started with
  | (some err, gs1, w1) => (.error err, gs1, w1)
  | (none, gs1, w1) =>
    let args : List (String × Any) := []
    let args := mapSet args "login" (Any.str login)
    let args := mapSet args "password" (Any.str passwordHash)
    match gs1.apiCallSecure T "authenticate" (some args) w1 with
    | (.error err, w2) => (.error err, gs1, w2)
    | (.ok resp, w2) =>
      match resp.getError parse with
      | some err => (.error err, gs1, w2)
      | none =>
        let user : User := GoType.zero
        let user := resp.unmarshal parse user
        if !user.Success then
          (.error (GoError.errorString "Error authenticating user"), gs1, w2)
        else (.ok user, gs1, w2)

/-- Method `(*GrooveShark).Logout` (core.go 234-247); `none` is the nil error. -/
def GrooveShark.Logout {σ : Type} (parse : String → Option JSON) (T : Transport σ)
    (gs : GrooveShark) (w : σ) : Option GoError × σ :=
  match gs.apiCallSecure T "logout" none w with
  | (.error err, w1) => (some err, w1)
  | (.ok resp, w1) =>
    match resp.getError parse with
    | some err => (some err, w1)
    | none => (none, w1)

/-- Method `(*GrooveShark).PingService` (core.go 249-265). -/
def GrooveShark.PingService {σ : Type} (parse : String → Option JSON) (T : Transport σ)
    (gs : GrooveShark) (w : σ) : Except GoError StringPtr × σ :=
  match gs.apiCallSecure T "pingService" none w with
  | (.error err, w1) => (.error err, w1)
  | (.ok resp, w1) =>
    match resp.getError parse with
    | some err => (.error err, w1)
    | none =>
      let helloWorld : String := GoType.zero
      let helloWorld := resp.unmarshal parse helloWorld
      (.ok (StringPtr.fresh helloWorld), w1)

/-- Method `(*GrooveShark).AddUserFavoriteSong` (core.go 267-289); `none` is the nil
error. -/
def GrooveShark.AddUserFavoriteSong {σ : Type} (parse : String → Option JSON)
    (T : Transport σ) (gs : GrooveShark) (songId : Int) (w : σ) : Option GoError × σ :=
  let args : List (String × Any) := []
  let args := mapSet args "songID" (Any.int songId)
  match gs.apiCall T "addUserFavoriteSong" (some args) w with
  | (.error err, w1) => (some err, w1)
  | (.ok resp, w1) =>
    match resp.getError parse with
    | some err => (some err, w1)
    | none =>
      let respData : EmptyResponse := GoType.zero
      let respData := resp.unmarshal parse respData
      if !respData.Success then (some (GoError.errorString "Error adding favorite song"), w1)
      else (none, w1)

/-- Method `(*GrooveShark).CreatePlaylist` (core.go 297-320); `songIds` is a `[]int`
that may be nil. -/
def GrooveShark.CreatePlaylist {σ : Type} (parse : String → Option JSON) (T : Transport σ)
    (gs : GrooveShark) (playlistName : String) (songIds : Option (List Int)) (w : σ) :
    Except GoError PlaylistResponse × σ :=
  let args : List (String × Any) := []
  let args := mapSet args "name" (Any.str playlistName)
  let args := mapSet args "songIDs" (Any.intSlice songIds)
  match gs.apiCall T "createPlaylist" (some args) w with
  | (.error err, w1) => (.error err, w1)
  | (.ok resp, w1) =>
    match resp.getError parse with
    | some err => (.error err, w1)
    | none =>
      let respData : PlaylistResponse := GoType.zero
      let respData := resp.unmarshal parse respData
      if !respData.Success then (.error (GoError.errorString "Error creating playlist"), w1)
      else (.ok respData, w1)

/-- Method `(*GrooveShark).DeletePlaylist` (core.go 327-349). -/
def GrooveShark.DeletePlaylist {σ : Type} (parse : String → Option JSON) (T : Transport σ)
    (gs : GrooveShark) (playlistId : Int) (w : σ) :
    Except GoError DeletePlaylistResponse × σ :=
  let args : List (String × Any) := []
  let args := mapSet args "playlistID" (Any.int playlistId)
  match gs.apiCall T "deletePlaylist" (some args) w with
  | (.error err, w1) => (.error err, w1)
  | (.ok resp, w1) =>
    match resp.getError parse with
    | some err => (.error err, w1)
    | none =>
      let respData : DeletePlaylistResponse := GoType.zero
      let respData := resp.unmarshal parse respData
      if !respData.Success then (.error (GoError.errorString "Error deleting playlist"), w1)
      else (.ok respData, w1)

/-! ## `encoding/json`: the grammar

A reader of JSON text for the `parse` argument of the functions above, after the scanner
of `encoding/json` (RFC 8259, nesting limited to 10000 levels). -/

/-- The opening brace. -/
def lbrace : Char := Char.ofNat 123

/-- The closing brace. -/
def rbrace : Char := Char.ofNat 125

/-- JSON white space: space, tab, line feed, carriage return. -/
def isSpace (c : Char) : Bool :=
  c.toNat == 32 || c.toNat == 9 || c.toNat == 10 || c.toNat == 13

/-- Drop leading white space. -/
def skipSpace : List Char → List Char
  | [] => []
  | c :: cs => if isSpace c then skipSpace cs else c :: cs

/-- Decimal digits. -/
def isDigit (c : Char) : Bool := 48 ≤ c.toNat && c.toNat ≤ 57

/-- The longest run of digits at the head of the text, and what follows it. -/
def spanDigits : List Char → List Char × List Char
  | [] => ([], [])
  | c :: cs =>
    if isDigit c then
      let r := spanDigits cs
      (c :: r.1, r.2)
    else ([], c :: cs)

/-- Value of a run of decimal digits. -/
def digitsValue (ds : List Char) : Nat :=
  ds.foldl (fun n d => 10 * n + (d.toNat - 48)) 0

/-- Optional fraction of a number: its text and what follows it. -/
def scanFrac : List Char → Option (List Char × List Char)
  | [] => some ([], [])
  | c :: r =>
    if c = '.' then
      let d := spanDigits r
      if d.1.isEmpty then none else some (c :: d.1, d.2)
    else some ([], c :: r)

/-- Optional exponent of a number: its text and what follows it. -/
def scanExp : List Char → Option (List Char × List Char)
  | [] => some ([], [])
  | c :: r =>
    if c = 'e' ∨ c = 'E' then
      let s : List Char × List Char :=
        match r with
        | [] => ([], [])
        | x :: r1 => if x = '+' ∨ x = '-' then ([x], r1) else ([], x :: r1)
      let d := spanDigits s.2
      if d.1.isEmpty then none else some (c :: (s.1 ++ d.1), d.2)
    else some ([], c :: r)

/-- A number literal at the head of the text. -/
def scanNumber (cs : List Char) : Option (JSON × List Char) :=
  let neg : Bool := cs.head? == some '-'
  let cs1 := if neg then cs.tail else cs
  let ip := spanDigits cs1
  if ip.1.isEmpty || (decide (ip.1.length > 1) && ip.1.head? == some '0') then none
  else
    match scanFrac ip.2 with
    | none => none
    | some (ft, r1) =>
      match scanExp r1 with
      | none => none
      | some (et, r2) =>
        if ft.isEmpty && et.isEmpty then
          let v : Int := digitsValue ip.1
          some (JSON.int (if neg then -v else v), r2)
        else
          some (JSON.real (String.mk ((if neg then ['-'] else []) ++ ip.1 ++ ft ++ et)), r2)

/-- Value of a hexadecimal digit. -/
def hexVal (c : Char) : Option Nat :=
  if isDigit c then some (c.toNat - 48)
  else if 97 ≤ c.toNat ∧ c.toNat ≤ 102 then some (c.toNat - 87)
  else if 65 ≤ c.toNat ∧ c.toNat ≤ 70 then some (c.toNat - 55)
  else none

/-- The code unit of an escape `\uXXXX` at the head of the text (`getu4`). -/
def getu4 : List Char → Option (Nat × List Char)
  | b :: u :: h1 :: h2 :: h3 :: h4 :: rest =>
    if b = bslash ∧ u = 'u' then
      match hexVal h1, hexVal h2, hexVal h3, hexVal h4 with
      | some a1, some a2, some a3, some a4 => some (((a1 * 16 + a2) * 16 + a3) * 16 + a4, rest)
      | _, _, _, _ => none
    else none
  | _ => none

/-- The character a one-letter escape stands for. -/
def unescape (e : Char) : Option Char :=
  if e = dquote then some dquote
  else if e = bslash then some bslash
  else if e = '/' then some '/'
  else if e = 'b' then some (Char.ofNat 8)
  else if e = 'f' then some (Char.ofNat 12)
  else if e = 'n' then some (Char.ofNat 10)
  else if e = 'r' then some (Char.ofNat 13)
  else if e = 't' then some (Char.ofNat 9)
  else none

/-- The rest of a string literal after its opening quote: the decoded string and what
follows the closing quote.  A surrogate pair of `\u` escapes is one character, a lone
surrogate is U+FFFD, a raw control character is an error. -/
def scanString : Nat → List Char → List Char → Option (String × List Char)
  | 0, _, _ => none
  | n + 1, cs, acc =>
    match cs with
    | [] => none
    | c :: rest =>
      if c = dquote then some (String.mk acc.reverse, rest)
      else if c = bslash then
        match rest with
        | [] => none
        | e :: rest1 =>
          if e = 'u' then
            match getu4 cs with
            | none => none
            | some (rr, rest2) =>
              if 0xD800 ≤ rr ∧ rr < 0xE000 then
                match getu4 rest2 with
                | some (rr1, rest3) =>
                  if rr < 0xDC00 ∧ 0xDC00 ≤ rr1 ∧ rr1 < 0xE000 then
                    scanString n rest3
                      (Char.ofNat (0x10000 + (rr - 0xD800) * 1024 + (rr1 - 0xDC00)) :: acc)
                  else scanString n rest2 (Char.ofNat 0xFFFD :: acc)
                | none => scanString n rest2 (Char.ofNat 0xFFFD :: acc)
              else scanString n rest2 (Char.ofNat rr :: acc)
          else
            match unescape e with
            | some ch => scanString n rest1 (ch :: acc)
            | none => none
      else if c.toNat < 32 then none
      else scanString n rest (c :: acc)

/-- Deepest nesting of arrays and objects the scanner accepts. -/
def maxNestingDepth : Nat := 10000

mutual

/-- One JSON value at the head of the text, inside `depth` arrays and objects. -/
def parseValue : Nat → Nat → List Char → Option (JSON × List Char)
  | 0, _, _ => none
  | n + 1, depth, cs =>
    match skipSpace cs with
    | [] => none
    | c :: rest =>
      if c = lbrace then
        if depth ≥ maxNestingDepth then none
        else
          match skipSpace rest with
          | [] => none
          | c1 :: rest1 =>
            if c1 = rbrace then some (JSON.obj [], rest1)
            else
              match parseMembers n (depth + 1) (c1 :: rest1) with
              | some (ms, r) => some (JSON.obj ms, r)
              | none => none
      else if c = '[' then
        if depth ≥ maxNestingDepth then none
        else
          match skipSpace rest with
          | [] => none
          | c1 :: rest1 =>
            if c1 = ']' then some (JSON.arr [], rest1)
            else
              match parseElems n (depth + 1) (c1 :: rest1) with
              | some (vs, r) => some (JSON.arr vs, r)
              | none => none
      else if c = dquote then
        match scanString (rest.length + 1) rest [] with
        | some (s, r) => some (JSON.str s, r)
        | none => none
      else if "true".toList.isPrefixOf (c :: rest) then some (JSON.bool true, rest.drop 3)
      else if "false".toList.isPrefixOf (c :: rest) then some (JSON.bool false, rest.drop 4)
      else if "null".toList.isPrefixOf (c :: rest) then some (JSON.null, rest.drop 3)
      else scanNumber (c :: rest)

/-- The elements of an array, from the first character of an element to the closing
bracket. -/
def parseElems : Nat → Nat → List Char → Option (List JSON × List Char)
  | 0, _, _ => none
  | n + 1, depth, cs =>
    match parseValue n depth cs with
    | none => none
    | some (v, rest) =>
      match skipSpace rest with
      | [] => none
      | c :: rest1 =>
        if c = ',' then
          match parseElems n depth rest1 with
          | some (vs, r) => some (v :: vs, r)
          | none => none
        else if c = ']' then some ([v], rest1)
        else none

/-- The members of an object, from the quote of a key to the closing brace. -/
def parseMembers : Nat → Nat → List Char → Option (List (String × JSON) × List Char)
  | 0, _, _ => none
  | n + 1, depth, cs =>
    match skipSpace cs with
    | [] => none
    | c :: rest =>
      if c = dquote then
        match scanString (rest.length + 1) rest [] with
        | none => none
        | some (k, rest1) =>
          match skipSpace rest1 with
          | [] => none
          | c1 :: rest2 =>
            if c1 = ':' then
              match parseValue n depth rest2 with
              | none => none
              | some (v, rest3) =>
                match skipSpace rest3 with
                | [] => none
                | c2 :: rest4 =>
                  if c2 = ',' then
                    match parseMembers n depth rest4 with
                    | some (ms, r) => some ((k, v) :: ms, r)
                    | none => none
                  else if c2 = rbrace then some ([(k, v)], rest4)
                  else none
            else none
      else none

end

/-- The value a whole body stands for, or `none` when the body is not valid JSON. -/
def parseJSON (body : String) : Option JSON :=
  let cs := body.toList
  match parseValue (2 * cs.length + 1) 0 cs with
  | none => none
  | some (v, rest) => if (skipSpace rest).isEmpty then some v else none

/-- A mocked transport: it answers every request with `reply` and records the requests
it was given, in order. -/
def mockTransport (reply : Except String HttpResponse) : Transport (List HttpRequest) :=
  fun req log => (reply, log ++ [req])

/-- A transport that behaves as `T` and reports `code` as the status of every response. -/
def withStatus {σ : Type} (code : Int) (T : Transport σ) : Transport σ :=
  fun req w =>
    match T req w with
    | (.ok resp, w1) => (.ok { resp with StatusCode := code }, w1)
    | (.error err, w1) => (.error err, w1)

/-- The client of `TestInitGrooveShark`: public key `pub`, secret key `secrets`. -/
def testClient : GrooveShark := NewGrooveShark "pub" "secrets"

/-- The client `testClient` holding the session `abc`. -/
def testClientInSession : GrooveShark :=
  { secretKey := "secrets", publicKey := "pub", sessionId := "abc" }

/-- A mocked transport answering HTTP 200 with `body`. -/
def mock200 (body : String) : Transport (List HttpRequest) :=
  mockTransport (.ok { StatusCode := 200, Body := body })

/-- Body of a session start answered with `success: true` and the session `abc`. -/
def bodySessionAbc : String :=
  "\x7b\x22header\x22:\x7b\x7d,\x22result\x22:\x7b\x22success\x22:true,"
    ++ "\x22sessionID\x22:\x22abc\x22\x7d\x7d"

/-- Body of a session start answered with `success: true` and an empty `sessionID`. -/
def bodySessionEmpty : String :=
  "\x7b\x22header\x22:\x7b\x7d,\x22result\x22:\x7b\x22success\x22:true,"
    ++ "\x22sessionID\x22:\x22\x22\x7d\x7d"

/-- Body of an answer whose result is `success: false`. -/
def bodySuccessFalse : String :=
  "\x7b\x22header\x22:\x7b\x7d,\x22result\x22:\x7b\x22success\x22:false\x7d\x7d"

/-- The request `testClient` sends to start a session. -/
def startSessionRequest : HttpRequest :=
  { Method := "POST",
    URL := "https://api.grooveshark.com/ws3.php?sig=e573d1b38e709474942f2ca073b57715",
    Body := "\x7b\x22method\x22:\x22startSession\x22,\x22parameters\x22:null,"
      ++ "\x22header\x22:\x7b\x22wsKey\x22:\x22pub\x22\x7d\x7d",
    Header := [("Content-Type", "text/plain; charset=UTF-8"),
      ("User-Agent", "GoGrooveShark-Go")] }

/-! ## Theorems -/

theorem leBytes_length (n k : Nat) : (leBytes n k).length = k := by
  induction k generalizing n with
  | zero => rfl
  | succ k ih => simp [leBytes, ih]

theorem md5Sum_length (msg : List Nat) : (md5Sum msg).length = 16 := by
  simp [md5Sum, leBytes_length]

theorem hexBytes_length (b : List Nat) : (hexBytes b).length = 2 * b.length := by
  induction b with
  | nil => rfl
  | cons x xs ih => simp [hexBytes, ih]; omega

theorem hexDigit_lower (n : Nat) (h : n < 16) : isLowerHex (hexDigit n) = true := by
  interval_cases n <;> decide

theorem hexBytes_lower (b : List Nat) : ∀ c ∈ hexBytes b, isLowerHex c = true := by
  induction b with
  | nil => simp [hexBytes]
  | cons x xs ih =>
    intro c hc
    simp only [hexBytes, List.mem_cons] at hc
    rcases hc with rfl | rfl | hc
    · exact hexDigit_lower _ (by omega)
    · exact hexDigit_lower _ (by omega)
    · exact ih c hc

theorem hmac_eq_rfc (H : List Nat → List Nat) (B : Nat) (key text : List Nat) :
    ((hmacNew ⟨H, B, []⟩ key).Write text).Sum [] = hmacRFC H B key text := by
  by_cases h : key.length > B
  · simp [hmacNew, hmacRFC, hmac.Write, hmac.Sum, Hash.Write, Hash.Sum, Hash.Reset, h]
  · simp [hmacNew, hmacRFC, hmac.Write, hmac.Sum, Hash.Write, Hash.Sum, Hash.Reset, h]

theorem createSignature_eq_hmac (query privateKey : String) :
    createSignature query privateKey
      = sprintfHex (hmacMD5 (goBytes privateKey) (goBytes query)) := by
  show sprintfHex (((hmacNew ⟨md5Sum, 64, []⟩ (goBytes privateKey)).Write (goBytes query)).Sum [])
    = sprintfHex (hmacRFC md5Sum 64 (goBytes privateKey) (goBytes query))
  rw [hmac_eq_rfc]

set_option maxRecDepth 100000 in
theorem createSignature_vector :
    createSignature "\x7b\x27x\x27: \x27some json value\x27\x7d"
        "1234567890abcdefghijklmnopqrstuv" = "9bdf0ebbb4cb2c945022670a16c6b5dc" := by
  decide

/-- Claim C2: `createSignature` is the lowercase hexadecimal encoding, 32 characters long,
of HMAC-MD5 (RFC 2104 over MD5) of the payload bytes keyed by the key bytes; the same
holds of the steps of `createSignature` on arbitrary byte strings; and the known vector
of the repository's example test yields `9bdf0ebbb4cb2c945022670a16c6b5dc`. -/
theorem createSignature_spec :
    (∀ payload key : String,
      createSignature payload key = sprintfHex (hmacMD5 (goBytes key) (goBytes payload))
      ∧ (createSignature payload key).length = 32
      ∧ ∀ c ∈ (createSignature payload key).toList, isLowerHex c = true)
    ∧ (∀ payload key : List Nat,
      ((hmacNew md5New key).Write payload).Sum [] = hmacMD5 key payload
      ∧ (hmacMD5 key payload).length = 16
      ∧ (sprintfHex (hmacMD5 key payload)).length = 32)
    ∧ createSignature "\x7b\x27x\x27: \x27some json value\x27\x7d"
        "1234567890abcdefghijklmnopqrstuv" = "9bdf0ebbb4cb2c945022670a16c6b5dc" := by
  refine ⟨fun payload key => ⟨createSignature_eq_hmac payload key, ?_, ?_⟩,
    fun payload key => ⟨hmac_eq_rfc md5Sum 64 key payload, ?_, ?_⟩,
    createSignature_vector⟩
  · rw [createSignature_eq_hmac]
    simp [sprintfHex, String.length, hexBytes_length, hmacMD5, hmacRFC, md5Sum_length]
  · rw [createSignature_eq_hmac]
    exact hexBytes_lower _
  · simp [hmacMD5, hmacRFC, md5Sum_length]
  · simp [sprintfHex, String.length, hexBytes_length, hmacMD5, hmacRFC, md5Sum_length]

/-! ### Strings and the classifier -/

theorem utf8Char_ne_nil (c : Char) : utf8Char c ≠ [] := by
  unfold utf8Char
  simp only
  split_ifs <;> simp

theorem goLen_pos_iff (s : String) : goLen s > 0 ↔ s ≠ "" := by
  obtain ⟨l⟩ := s
  cases l with
  | nil => simp [goLen, goBytes]
  | cons c cs =>
    have h : utf8Char c ≠ [] := utf8Char_ne_nil c
    have hne : (String.mk (c :: cs)) ≠ "" := by
      intro hh
      have := congrArg String.data hh
      simp at this
    simp only [goLen, goBytes, String.toList, List.flatMap_cons, List.length_append, gt_iff_lt,
      ne_eq, hne, not_false_eq_true, iff_true]
    have : 0 < (utf8Char c).length := List.length_pos.mpr h
    omega

theorem getError_loop_iff (l : List apiError) :
    getError.loop l false = true ↔ ∃ x ∈ l, x.Code ≠ 0 := by
  induction l with
  | nil => simp [getError.loop]
  | cons x xs ih =>
    by_cases h : x.Code = 0 <;> simp [getError.loop, h, ih]

theorem getError_eq (parse : String → Option JSON) (resp : apiResponse) :
    resp.getError parse =
      if (jsonUnmarshal parse resp.Body (GoType.zero : ApiErrorResponse)).2 = none
          ∧ getError.loop
            (jsonUnmarshal parse resp.Body (GoType.zero : ApiErrorResponse)).1.Errors.elems false
            = true
      then some (GoError.api (jsonUnmarshal parse resp.Body (GoType.zero : ApiErrorResponse)).1)
      else none := rfl

theorem getError_some_iff (parse : String → Option JSON) (resp : apiResponse) (e : GoError) :
    resp.getError parse = some e ↔
      ∃ r : ApiErrorResponse,
        jsonUnmarshal parse resp.Body (GoType.zero : ApiErrorResponse) = (r, none)
        ∧ (∃ x ∈ r.Errors.elems, x.Code ≠ 0) ∧ e = GoError.api r := by
  rw [getError_eq]
  generalize jsonUnmarshal parse resp.Body (GoType.zero : ApiErrorResponse) = u
  obtain ⟨r, err⟩ := u
  constructor
  · intro h
    split_ifs at h with hc
    · refine ⟨r, ?_, (getError_loop_iff _).mp hc.2, ?_⟩
      · simp only at hc
        rw [hc.1]
      · simp only [Option.some.injEq] at h
        exact h.symm
  · rintro ⟨r', hr, hx, rfl⟩
    simp only [Prod.mk.injEq] at hr
    obtain ⟨rfl, rfl⟩ := hr
    simp [(getError_loop_iff _).mpr hx]

theorem getError_none_of_codes_zero (parse : String → Option JSON) (resp : apiResponse)
    (h : ∀ x ∈ (jsonUnmarshal parse resp.Body (GoType.zero : ApiErrorResponse)).1.Errors.elems,
      x.Code = 0) :
    resp.getError parse = none := by
  rw [getError_eq]
  have hl : ¬ getError.loop
      (jsonUnmarshal parse resp.Body (GoType.zero : ApiErrorResponse)).1.Errors.elems false
        = true := by
    rw [getError_loop_iff]
    rintro ⟨x, hx, hne⟩
    exact hne (h x hx)
  simp [hl]

theorem findField_none {σ : Type} (fields : List (Field σ)) (key : String)
    (h : ∀ f ∈ fields, equalFold f.name key = false) : findField fields key = none := by
  have h1 : fields.find? (fun f => f.name == key) = none := by
    rw [List.find?_eq_none]
    intro f hf heq
    have : f.name = key := by simpa using heq
    have h2 := h f hf
    rw [this] at h2
    simp [equalFold] at h2
  have h2 : fields.find? (fun f => equalFold f.name key) = none := by
    rw [List.find?_eq_none]
    intro f hf
    simp [h f hf]
  simp [findField, h1, h2]

theorem decodeMembers_skip {σ : Type} (fields : List (Field σ)) (ms : List (String × JSON))
    (acc : σ × Option DecodeErr) (h : ∀ kv ∈ ms, findField fields kv.1 = none) :
    decodeMembers fields ms acc = acc := by
  induction ms generalizing acc with
  | nil => rfl
  | cons kv rest ih =>
    obtain ⟨k, v⟩ := kv
    have hk : findField fields k = none := h (k, v) (List.mem_cons_self _ _)
    simp only [decodeMembers, hk]
    exact ih acc (fun kv hkv => h kv (List.mem_cons_of_mem _ hkv))

theorem getError_none_of_no_errors_member (parse : String → Option JSON) (resp : apiResponse)
    (members : List (String × JSON)) (hp : parse resp.Body = some (JSON.obj members))
    (h : ∀ kv ∈ members, equalFold "errors" kv.1 = false) : resp.getError parse = none := by
  apply getError_none_of_codes_zero
  have hskip : decodeMembers ApiErrorResponse.fields members ((GoType.zero : ApiErrorResponse), none)
      = ((GoType.zero : ApiErrorResponse), none) := by
    apply decodeMembers_skip
    intro kv hkv
    apply findField_none
    intro f hf
    simp only [ApiErrorResponse.fields, List.mem_singleton] at hf
    subst hf
    exact h kv hkv
  simp only [jsonUnmarshal, hp, GoType.decode, decodeStruct, hskip]
  intro x hx
  simp [GoType.zero, Slice.nil] at hx

theorem getError_obj_of_some (parse : String → Option JSON) (resp : apiResponse)
    (h : resp.getError parse ≠ none) : ∃ members, parse resp.Body = some (JSON.obj members) := by
  by_contra hno
  apply h
  apply getError_none_of_codes_zero
  simp only [jsonUnmarshal]
  cases hp : parse resp.Body with
  | none => simp [GoType.zero, Slice.nil]
  | some j =>
    cases j with
    | obj members => exact absurd ⟨members, hp⟩ hno
    | _ => simp [GoType.decode, decodeStruct, GoType.zero, Slice.nil]

/-- Claim C1: `getError` returns a non-nil `*ApiErrorResponse` exactly when the body is
decoded into `ApiErrorResponse` without error and some entry of its `Errors` has a
nonzero code, and the report returned is the decoded value with every entry in order;
a non-nil report needs a body that is a JSON object; a body that is not JSON, an object
without an `errors` member, `errors: []` and entries that all have code 0 give nil; the
body `errors: [{code: 102, message: "Invalid method"}]` gives that single entry. -/
theorem getError_spec (parse : String → Option JSON) (resp : apiResponse) :
    (∀ e : GoError, resp.getError parse = some e ↔
        ∃ r : ApiErrorResponse,
          jsonUnmarshal parse resp.Body (GoType.zero : ApiErrorResponse) = (r, none)
          ∧ (∃ x ∈ r.Errors.elems, x.Code ≠ 0) ∧ e = GoError.api r)
    ∧ (resp.getError parse ≠ none → ∃ members, parse resp.Body = some (JSON.obj members))
    ∧ (parse resp.Body = none → resp.getError parse = none)
    ∧ (∀ members, parse resp.Body = some (JSON.obj members) →
        (∀ kv ∈ members, equalFold "errors" kv.1 = false) → resp.getError parse = none)
    ∧ (parse resp.Body = some (JSON.obj [("errors", JSON.arr [])]) →
        resp.getError parse = none)
    ∧ ((∀ x ∈ (jsonUnmarshal parse resp.Body (GoType.zero : ApiErrorResponse)).1.Errors.elems,
          x.Code = 0) → resp.getError parse = none)
    ∧ (∀ msg : String,
        parse resp.Body
          = some (JSON.obj [("errors",
              JSON.arr [JSON.obj [("code", JSON.int 0), ("message", JSON.str msg)]])]) →
        resp.getError parse = none)
    ∧ (parse resp.Body
          = some (JSON.obj [("errors",
              JSON.arr [JSON.obj [("code", JSON.int 102),
                ("message", JSON.str "Invalid method")]])]) →
        resp.getError parse
          = some (GoError.api ⟨⟨[⟨102, "Invalid method"⟩], []⟩⟩)) := by
  refine ⟨getError_some_iff parse resp, getError_obj_of_some parse resp, ?_,
    getError_none_of_no_errors_member parse resp, ?_,
    getError_none_of_codes_zero parse resp, ?_, ?_⟩
  · intro hp
    apply getError_none_of_codes_zero
    simp [jsonUnmarshal, hp, GoType.zero, Slice.nil]
  · intro hp
    rw [getError_eq]
    simp only [jsonUnmarshal, hp]
    rfl
  · intro msg hp
    rw [getError_eq]
    simp only [jsonUnmarshal, hp]
    rfl
  · intro hp
    rw [getError_eq]
    simp only [jsonUnmarshal, hp]
    rfl

set_option maxRecDepth 100000 in
/-- Witness of C1 on a body of the service: the text of the error answer is read by
`parseJSON` and classified as the one-entry report. -/
theorem getError_spec_witness :
    (⟨200, "\x7b\x22errors\x22:[\x7b\x22code\x22:102,\x22message\x22:\x22Invalid method\x22\x7d]\x7d"⟩
        : apiResponse).getError parseJSON
      = some (GoError.api ⟨⟨[⟨102, "Invalid method"⟩], []⟩⟩) :=
  (getError_spec parseJSON _).2.2.2.2.2.2.2 (by rfl)

/-! ### The envelope and the request -/

theorem requestPayload_header (gs : GrooveShark) (methodName : String)
    (args : Option (List (String × Any))) :
    (gs.requestPayload methodName args).Header
      = [("wsKey", Any.str gs.publicKey)]
        ++ (if gs.sessionId = "" then [] else [("sessionID", Any.str gs.sessionId)]) := by
  by_cases h : gs.sessionId = ""
  · have h0 : ¬ goLen gs.sessionId > 0 := by
      rw [goLen_pos_iff]
      simp [h]
    simp only [GrooveShark.requestPayload, h0, if_false, h, if_true]
    rfl
  · have h1 : goLen gs.sessionId > 0 := (goLen_pos_iff _).mpr h
    simp only [GrooveShark.requestPayload, h1, if_true, h, if_false]
    rfl

theorem requestPayload_method (gs : GrooveShark) (methodName : String)
    (args : Option (List (String × Any))) :
    (gs.requestPayload methodName args).Method = methodName := by
  unfold GrooveShark.requestPayload
  simp only
  split_ifs <;> rfl

theorem requestPayload_parameters (gs : GrooveShark) (methodName : String)
    (args : Option (List (String × Any))) :
    (gs.requestPayload methodName args).Parameters = args := by
  unfold GrooveShark.requestPayload
  simp only
  split_ifs <;> rfl

theorem marshalAny_ok (v : Any) (h : v ≠ Any.unsupported) : ∃ s, marshalAny v = .ok s := by
  cases v with
  | str s => exact ⟨_, rfl⟩
  | int i => exact ⟨_, rfl⟩
  | intSlice s =>
    cases s with
    | none => exact ⟨_, rfl⟩
    | some l => exact ⟨_, rfl⟩
  | intPtr p => exact ⟨_, rfl⟩
  | unsupported => exact absurd rfl h

theorem marshalMembers_ok (l : List (String × Any)) (h : ∀ kv ∈ l, kv.2 ≠ Any.unsupported) :
    ∃ es, marshalMembers l = .ok es := by
  induction l with
  | nil => exact ⟨[], rfl⟩
  | cons kv rest ih =>
    obtain ⟨k, v⟩ := kv
    obtain ⟨ev, hev⟩ := marshalAny_ok v (h (k, v) (List.mem_cons_self _ _))
    obtain ⟨es, hes⟩ := ih (fun kv hkv => h kv (List.mem_cons_of_mem _ hkv))
    exact ⟨(jsonQuote k ++ ":" ++ ev) :: es, by simp only [marshalMembers, hev, hes]⟩

theorem mem_insertByKey (kv x : String × Any) (l : List (String × Any)) :
    x ∈ insertByKey kv l ↔ x = kv ∨ x ∈ l := by
  induction l with
  | nil => simp [insertByKey]
  | cons y ys ih =>
    simp only [insertByKey]
    split_ifs
    · simp
    · simp only [List.mem_cons, ih]
      tauto

theorem mem_sortByKey (x : String × Any) (l : List (String × Any)) :
    x ∈ sortByKey l ↔ x ∈ l := by
  induction l with
  | nil => simp [sortByKey]
  | cons y ys ih =>
    have : sortByKey (y :: ys) = insertByKey y (sortByKey ys) := rfl
    rw [this, mem_insertByKey, ih]
    simp

theorem marshalMap_ok (m : List (String × Any)) (h : ∀ kv ∈ m, kv.2 ≠ Any.unsupported) :
    ∃ s, marshalMap m = .ok s := by
  obtain ⟨es, hes⟩ := marshalMembers_ok (sortByKey m)
    (fun kv hkv => h kv ((mem_sortByKey kv m).mp hkv))
  exact ⟨"\x7b" ++ ",".intercalate es ++ "\x7d", by simp only [marshalMap, hes]⟩

theorem jsonMarshal_ok (gs : GrooveShark) (methodName : String)
    (args : Option (List (String × Any))) (h : Supported args) :
    ∃ body, jsonMarshal (gs.requestPayload methodName args) = .ok body := by
  have hh : ∀ kv ∈ (gs.requestPayload methodName args).Header, kv.2 ≠ Any.unsupported := by
    rw [requestPayload_header]
    intro kv hkv
    by_cases hs : gs.sessionId = ""
    · simp only [hs, if_true, List.append_nil, List.mem_singleton] at hkv
      subst hkv
      simp
    · simp only [hs, if_false, List.mem_append, List.mem_singleton] at hkv
      rcases hkv with rfl | rfl <;> simp
  obtain ⟨hs, hhs⟩ := marshalMap_ok _ hh
  have hp : ∃ ps, (match (gs.requestPayload methodName args).Parameters with
      | none => (Except.ok "null" : Except GoError String)
      | some m => marshalMap m) = .ok ps := by
    rw [requestPayload_parameters]
    cases args with
    | none => exact ⟨_, rfl⟩
    | some m => exact marshalMap_ok m (h m rfl)
  obtain ⟨ps, hps⟩ := hp
  exact ⟨"\x7b" ++ jsonQuote "method" ++ ":"
      ++ jsonQuote (gs.requestPayload methodName args).Method ++ ","
      ++ jsonQuote "parameters" ++ ":" ++ ps ++ ","
      ++ jsonQuote "header" ++ ":" ++ hs ++ "\x7d", by simp only [jsonMarshal, hps, hhs]⟩

theorem apiCallEx_mock (reply : Except String HttpResponse) (gs : GrooveShark)
    (methodName : String) (args : Option (List (String × Any))) (secure : Bool)
    (log : List HttpRequest) :
    gs.apiCallEx (mockTransport reply) methodName args secure log =
      match jsonMarshal (gs.requestPayload methodName args) with
      | .error err => (.error err, log)
      | .ok body =>
        (match reply with
          | .error e => .error (GoError.http e)
          | .ok r => .ok { HttpCode := r.StatusCode, Body := r.Body },
         log ++ [{ Method := "POST",
                   URL := (if secure then "https" else "http")
                     ++ "://api.grooveshark.com/ws3.php?sig="
                     ++ createSignature body gs.secretKey,
                   Body := body,
                   Header := [("Content-Type", "text/plain; charset=UTF-8"),
                     ("User-Agent", "GoGrooveShark-Go")] }]) := by
  cases hm : jsonMarshal (gs.requestPayload methodName args) with
  | error err => simp only [GrooveShark.apiCallEx, hm]
  | ok body =>
    have hurl : (if secure then "https" else "http") ++ "://" ++ API_HOST
          ++ ("?sig=" ++ createSignature body gs.secretKey)
        = (if secure then "https" else "http") ++ "://api.grooveshark.com/ws3.php?sig="
          ++ createSignature body gs.secretKey := by
      have hlit : "://" ++ (API_HOST ++ "?sig=") = "://api.grooveshark.com/ws3.php?sig=" := by
        decide
      rw [String.append_assoc, String.append_assoc, ← String.append_assoc API_HOST,
        ← String.append_assoc "://", hlit, ← String.append_assoc]
    cases reply with
    | error e => simp only [GrooveShark.apiCallEx, hm, mockTransport, hurl]; rfl
    | ok r => simp only [GrooveShark.apiCallEx, hm, mockTransport, hurl]; rfl

/-- Claim C3: the envelope `apiCallEx` builds has the given method name, the given
parameter mapping unchanged (nil and empty included), `header.wsKey` equal to the
client's `publicKey`, a `header.sessionID` entry exactly when `sessionId` is non-empty,
then equal to it, and no other header entry; that envelope is what is serialized into
the body of the request. -/
theorem requestPayload_spec (gs : GrooveShark) (methodName : String)
    (args : Option (List (String × Any))) :
    (gs.requestPayload methodName args).Method = methodName
    ∧ (gs.requestPayload methodName args).Parameters = args
    ∧ (gs.requestPayload methodName args).Header.lookup "wsKey" = some (Any.str gs.publicKey)
    ∧ ((∃ v, (gs.requestPayload methodName args).Header.lookup "sessionID" = some v)
        ↔ goLen gs.sessionId > 0)
    ∧ (goLen gs.sessionId > 0 →
        (gs.requestPayload methodName args).Header.lookup "sessionID"
          = some (Any.str gs.sessionId))
    ∧ (∀ k : String, k ≠ "wsKey" → k ≠ "sessionID" →
        (gs.requestPayload methodName args).Header.lookup k = none)
    ∧ (gs.requestPayload methodName args).Header
        = [("wsKey", Any.str gs.publicKey)]
          ++ (if gs.sessionId = "" then [] else [("sessionID", Any.str gs.sessionId)])
    ∧ (∀ (reply : Except String HttpResponse) (secure : Bool) (log : List HttpRequest)
        (req : HttpRequest),
        (gs.apiCallEx (mockTransport reply) methodName args secure log).2 = log ++ [req] →
        jsonMarshal (gs.requestPayload methodName args) = .ok req.Body) := by
  have hh := requestPayload_header gs methodName args
  refine ⟨requestPayload_method gs methodName args, requestPayload_parameters gs methodName args,
    ?_, ?_, ?_, ?_, hh, ?_⟩
  · rw [hh]
    rfl
  · rw [hh, goLen_pos_iff]
    by_cases hs : gs.sessionId = ""
    · simp only [hs, if_true, List.append_nil, ne_eq, not_true_eq_false, iff_false, not_exists]
      intro v
      simp [List.lookup]
    · simp only [hs, if_false, ne_eq, not_false_eq_true, iff_true]
      exact ⟨Any.str gs.sessionId, rfl⟩
  · intro hpos
    have hs : gs.sessionId ≠ "" := (goLen_pos_iff _).mp hpos
    rw [hh]
    simp only [hs, if_false]
    rfl
  · intro k hk1 hk2
    rw [hh]
    have h1 : (k == "wsKey") = false := by simpa using hk1
    have h2 : (k == "sessionID") = false := by simpa using hk2
    by_cases hs : gs.sessionId = ""
    · simp [hs, List.lookup, h1]
    · simp [hs, List.lookup, h1, h2]
  · intro reply secure log req hreq
    rw [apiCallEx_mock] at hreq
    cases hm : jsonMarshal (gs.requestPayload methodName args) with
    | error err =>
      rw [hm] at hreq
      simp at hreq
    | ok body =>
      rw [hm] at hreq
      simp only [List.append_cancel_left_eq, List.cons.injEq, and_true] at hreq
      rw [← hreq]

set_option maxRecDepth 100000 in
/-- Witness of C3: a client with session `abc` sends `wsKey` and `sessionID`, and
a mocked call records a request whose body is the serialized envelope. -/
theorem requestPayload_spec_witness :
    (({ secretKey := "secrets", publicKey := "pub", sessionId := "abc" } : GrooveShark).requestPayload
        "getPlaylist" (some [("playlistID", Any.str "52262304")])).Header.lookup "sessionID"
      = some (Any.str "abc")
    ∧ jsonMarshal (({ secretKey := "secrets", publicKey := "pub", sessionId := "abc" }
          : GrooveShark).requestPayload "getPlaylist" (some [("playlistID", Any.str "52262304")]))
      = .ok ("\x7b\x22method\x22:\x22getPlaylist\x22,\x22parameters\x22:"
          ++ "\x7b\x22playlistID\x22:\x2252262304\x22\x7d,\x22header\x22:"
          ++ "\x7b\x22sessionID\x22:\x22abc\x22,\x22wsKey\x22:\x22pub\x22\x7d\x7d") :=
  ⟨(requestPayload_spec _ _ _).2.2.2.2.1 (by decide),
   (requestPayload_spec { secretKey := "secrets", publicKey := "pub", sessionId := "abc" }
      "getPlaylist" (some [("playlistID", Any.str "52262304")])).2.2.2.2.2.2.2
      (.ok ⟨200, "ok"⟩) false []
      { Method := "POST",
        URL := "http://api.grooveshark.com/ws3.php?sig=6da20f932cc95f22208fb5e3f9606445",
        Body := "\x7b\x22method\x22:\x22getPlaylist\x22,\x22parameters\x22:"
          ++ "\x7b\x22playlistID\x22:\x2252262304\x22\x7d,\x22header\x22:"
          ++ "\x7b\x22sessionID\x22:\x22abc\x22,\x22wsKey\x22:\x22pub\x22\x7d\x7d",
        Header := [("Content-Type", "text/plain; charset=UTF-8"),
          ("User-Agent", "GoGrooveShark-Go")] }
      (by rfl)⟩

/-- Claim C9: the request `apiCallEx` issues is a POST whose body is the serialized
envelope and whose URL is the scheme (`https` when `secure`, else `http`) followed by
`://api.grooveshark.com/ws3.php?sig=` and `createSignature` of that same body under the
client's secret key; no request is issued when the envelope cannot be serialized;
`apiCall` is the call with `secure = false` and `apiCallSecure` the one with
`secure = true`. -/
theorem apiCallEx_request (reply : Except String HttpResponse) (gs : GrooveShark)
    (methodName : String) (args : Option (List (String × Any))) (secure : Bool)
    (log : List HttpRequest) :
    (∀ body, jsonMarshal (gs.requestPayload methodName args) = .ok body →
      (gs.apiCallEx (mockTransport reply) methodName args secure log).2
        = log ++ [{ Method := "POST",
                    URL := (if secure then "https" else "http")
                      ++ "://api.grooveshark.com/ws3.php?sig="
                      ++ createSignature body gs.secretKey,
                    Body := body,
                    Header := [("Content-Type", "text/plain; charset=UTF-8"),
                      ("User-Agent", "GoGrooveShark-Go")] }])
    ∧ (∀ err, jsonMarshal (gs.requestPayload methodName args) = .error err →
      gs.apiCallEx (mockTransport reply) methodName args secure log = (.error err, log))
    ∧ (Supported args → ∃ body, jsonMarshal (gs.requestPayload methodName args) = .ok body)
    ∧ gs.apiCall (mockTransport reply) methodName args log
        = gs.apiCallEx (mockTransport reply) methodName args false log
    ∧ gs.apiCallSecure (mockTransport reply) methodName args log
        = gs.apiCallEx (mockTransport reply) methodName args true log := by
  refine ⟨?_, ?_, jsonMarshal_ok gs methodName args, rfl, rfl⟩
  · intro body hm
    rw [apiCallEx_mock, hm]
  · intro err hm
    rw [apiCallEx_mock, hm]

set_option maxRecDepth 100000 in
/-- Witness of C9: the secure call of `pingService` by the client `pub`/`secrets`. -/
theorem apiCallEx_request_witness :
    ((NewGrooveShark "pub" "secrets").apiCallEx (mockTransport (.ok ⟨200, "ok"⟩))
        "pingService" none true []).2
      = [] ++ [{ Method := "POST",
                 URL := (if true then "https" else "http")
                   ++ "://api.grooveshark.com/ws3.php?sig="
                   ++ createSignature
                     ("\x7b\x22method\x22:\x22pingService\x22,\x22parameters\x22:null,"
                       ++ "\x22header\x22:\x7b\x22wsKey\x22:\x22pub\x22\x7d\x7d")
                     (NewGrooveShark "pub" "secrets").secretKey,
                 Body := "\x7b\x22method\x22:\x22pingService\x22,\x22parameters\x22:null,"
                   ++ "\x22header\x22:\x7b\x22wsKey\x22:\x22pub\x22\x7d\x7d",
                 Header := [("Content-Type", "text/plain; charset=UTF-8"),
                   ("User-Agent", "GoGrooveShark-Go")] }] :=
  (apiCallEx_request (.ok ⟨200, "ok"⟩) (NewGrooveShark "pub" "secrets") "pingService" none true
    []).1 _ (by rfl)

/-! ### Typed operations over a mocked transport -/

theorem apiCallEx_mock_ok (r : HttpResponse) (gs : GrooveShark) (methodName : String)
    (args : Option (List (String × Any))) (secure : Bool) (log : List HttpRequest)
    (h : Supported args) :
    ∃ req : HttpRequest,
      gs.apiCallEx (mockTransport (.ok r)) methodName args secure log
        = (.ok { HttpCode := r.StatusCode, Body := r.Body }, log ++ [req])
      ∧ jsonMarshal (gs.requestPayload methodName args) = .ok req.Body := by
  obtain ⟨body, hb⟩ := jsonMarshal_ok gs methodName args h
  rw [apiCallEx_mock]
  simp only [hb]
  exact ⟨_, rfl, rfl⟩

theorem supported_none : Supported none := by
  intro m hm
  cases hm

theorem supported_createPlaylist (playlistName : String) (songIds : Option (List Int)) :
    Supported (some (mapSet (mapSet [] "name" (Any.str playlistName)) "songIDs"
      (Any.intSlice songIds))) := by
  intro m hm kv hkv
  simp only [Option.some.injEq] at hm
  subst hm
  have : mapSet (mapSet [] "name" (Any.str playlistName)) "songIDs" (Any.intSlice songIds)
      = [("name", Any.str playlistName), ("songIDs", Any.intSlice songIds)] := by
    simp [mapSet]
  rw [this] at hkv
  simp only [List.mem_cons, List.mem_singleton, List.not_mem_nil, or_false] at hkv
  rcases hkv with rfl | rfl <;> simp

theorem CreatePlaylist_mock (parse : String → Option JSON) (gs : GrooveShark)
    (playlistName : String) (songIds : Option (List Int)) (r : HttpResponse)
    (log : List HttpRequest)
    (herr : (⟨r.StatusCode, r.Body⟩ : apiResponse).getError parse = none) :
    (gs.CreatePlaylist parse (mockTransport (.ok r)) playlistName songIds log).1
      = if ((⟨r.StatusCode, r.Body⟩ : apiResponse).unmarshal parse
            (GoType.zero : PlaylistResponse)).Success = true
        then .ok ((⟨r.StatusCode, r.Body⟩ : apiResponse).unmarshal parse
            (GoType.zero : PlaylistResponse))
        else .error (GoError.errorString "Error creating playlist") := by
  obtain ⟨req, hreq, -⟩ := apiCallEx_mock_ok r gs "createPlaylist" _ false log
    (supported_createPlaylist playlistName songIds)
  simp only [GrooveShark.CreatePlaylist, GrooveShark.apiCall, hreq, herr]
  by_cases hs : ((⟨r.StatusCode, r.Body⟩ : apiResponse).unmarshal parse
      (GoType.zero : PlaylistResponse)).Success = true
  · simp [hs]
  · simp [hs]

/-- Claim C5: with the transport mocked to return a body without nonzero-coded error
entry, `CreatePlaylist` returns the decoded `PlaylistResponse` and a nil error exactly
when the decoded result has `success = true`, and a nil result with the error
`Error creating playlist` otherwise; the body `{result: {success: true, playlistID:
80882182, playlistsTSModified: 123456}}` gives those three values, and the bodies
`{result: {success: false}}` and `{result: {}}` give the domain error. -/
theorem CreatePlaylist_spec (parse : String → Option JSON) (gs : GrooveShark)
    (playlistName : String) (songIds : Option (List Int)) (code : Int) (body : String)
    (log : List HttpRequest) :
    ((∀ x ∈ (jsonUnmarshal parse body (GoType.zero : ApiErrorResponse)).1.Errors.elems,
        x.Code = 0) →
      (gs.CreatePlaylist parse (mockTransport (.ok ⟨code, body⟩)) playlistName songIds log).1
        = if ((⟨code, body⟩ : apiResponse).unmarshal parse
              (GoType.zero : PlaylistResponse)).Success = true
          then .ok ((⟨code, body⟩ : apiResponse).unmarshal parse
              (GoType.zero : PlaylistResponse))
          else .error (GoError.errorString "Error creating playlist"))
    ∧ (parse body = some (JSON.obj [("result", JSON.obj [("success", JSON.bool true),
          ("playlistID", JSON.int 80882182), ("playlistsTSModified", JSON.int 123456)])]) →
      (gs.CreatePlaylist parse (mockTransport (.ok ⟨code, body⟩)) playlistName songIds log).1
        = .ok { Success := true, PlaylistsTSModified := 123456, PlaylistID := 80882182 })
    ∧ (parse body = some (JSON.obj [("result", JSON.obj [("success", JSON.bool false)])]) →
      (gs.CreatePlaylist parse (mockTransport (.ok ⟨code, body⟩)) playlistName songIds log).1
        = .error (GoError.errorString "Error creating playlist"))
    ∧ (parse body = some (JSON.obj [("result", JSON.obj [])]) →
      (gs.CreatePlaylist parse (mockTransport (.ok ⟨code, body⟩)) playlistName songIds log).1
        = .error (GoError.errorString "Error creating playlist")) := by
  refine ⟨?_, ?_, ?_, ?_⟩
  · intro hz
    exact CreatePlaylist_mock parse gs playlistName songIds ⟨code, body⟩ log
      (getError_none_of_codes_zero parse ⟨code, body⟩ hz)
  · intro hp
    have herr : (⟨code, body⟩ : apiResponse).getError parse = none := by
      rw [getError_eq]
      simp only [jsonUnmarshal, hp]
      rfl
    rw [CreatePlaylist_mock parse gs playlistName songIds ⟨code, body⟩ log herr]
    simp only [apiResponse.unmarshal, jsonUnmarshal, hp]
    rfl
  · intro hp
    have herr : (⟨code, body⟩ : apiResponse).getError parse = none := by
      rw [getError_eq]
      simp only [jsonUnmarshal, hp]
      rfl
    rw [CreatePlaylist_mock parse gs playlistName songIds ⟨code, body⟩ log herr]
    simp only [apiResponse.unmarshal, jsonUnmarshal, hp]
    rfl
  · intro hp
    have herr : (⟨code, body⟩ : apiResponse).getError parse = none := by
      rw [getError_eq]
      simp only [jsonUnmarshal, hp]
      rfl
    rw [CreatePlaylist_mock parse gs playlistName songIds ⟨code, body⟩ log herr]
    simp only [apiResponse.unmarshal, jsonUnmarshal, hp]
    rfl

set_option maxRecDepth 100000 in
/-- Witness of C5: the scenario of the test, on the text of the mocked body. -/
theorem CreatePlaylist_spec_witness :
    ((NewGrooveShark "pub" "secrets").CreatePlaylist parseJSON
        (mockTransport (.ok ⟨200,
          "\x7b\x22result\x22:\x7b\x22success\x22:true,\x22playlistID\x22:80882182,"
            ++ "\x22playlistsTSModified\x22:123456\x7d\x7d"⟩))
        "_TEST_PLAYLIST_" (some [30717514]) []).1
      = .ok { Success := true, PlaylistsTSModified := 123456, PlaylistID := 80882182 } :=
  (CreatePlaylist_spec parseJSON (NewGrooveShark "pub" "secrets") "_TEST_PLAYLIST_"
    (some [30717514]) 200 _ []).2.1 (by rfl)

/-- Claim C6: with the transport mocked to return HTTP 200 and a body `{header: h,
result: s}` for a string `s`, `PingService` sends one request, whose body is the
envelope of method `pingService` with nil parameters, and returns a nil error and a
pointer to a string equal to `s`, whatever the header `h` holds. -/
theorem PingService_spec (parse : String → Option JSON) (gs : GrooveShark) (s : String)
    (hdr : JSON) (body : String) (log : List HttpRequest)
    (hp : parse body = some (JSON.obj [("header", hdr), ("result", JSON.str s)])) :
    ∃ req : HttpRequest,
      gs.PingService parse (mockTransport (.ok ⟨200, body⟩)) log
        = (.ok (StringPtr.fresh s), log ++ [req])
      ∧ jsonMarshal (gs.requestPayload "pingService" none) = .ok req.Body
      ∧ (gs.requestPayload "pingService" none).Method = "pingService"
      ∧ (gs.requestPayload "pingService" none).Parameters = none
      ∧ (StringPtr.fresh s).deref gs = s := by
  obtain ⟨req, hreq, hbody⟩ := apiCallEx_mock_ok ⟨200, body⟩ gs "pingService" none true log
    supported_none
  refine ⟨req, ?_, hbody, requestPayload_method _ _ _, requestPayload_parameters _ _ _, rfl⟩
  have herr : (⟨200, body⟩ : apiResponse).getError parse = none := by
    rw [getError_eq]
    simp only [jsonUnmarshal, hp]
    rfl
  simp only [GrooveShark.PingService, GrooveShark.apiCallSecure, hreq, herr]
  simp only [apiResponse.unmarshal, jsonUnmarshal, hp]
  rfl

set_option maxRecDepth 100000 in
/-- Witness of C6: the scenario of the spec, `result` = `Hello World`. -/
theorem PingService_spec_witness :
    ∃ req : HttpRequest,
      (NewGrooveShark "pub" "secrets").PingService parseJSON
          (mockTransport (.ok ⟨200,
            "\x7b\x22header\x22:\x7b\x7d,\x22result\x22:\x22Hello World\x22\x7d"⟩)) []
        = (.ok (StringPtr.fresh "Hello World"), [] ++ [req])
      ∧ jsonMarshal ((NewGrooveShark "pub" "secrets").requestPayload "pingService" none)
        = .ok req.Body
      ∧ ((NewGrooveShark "pub" "secrets").requestPayload "pingService" none).Method
        = "pingService"
      ∧ ((NewGrooveShark "pub" "secrets").requestPayload "pingService" none).Parameters = none
      ∧ (StringPtr.fresh "Hello World").deref (NewGrooveShark "pub" "secrets") = "Hello World" :=
  PingService_spec parseJSON (NewGrooveShark "pub" "secrets") "Hello World" (JSON.obj [])
    "\x7b\x22header\x22:\x7b\x7d,\x22result\x22:\x22Hello World\x22\x7d" [] (by rfl)

/-! ### The HTTP status -/

theorem apiCallEx_withStatus {σ : Type} (c : Int) (T : Transport σ) (gs : GrooveShark)
    (methodName : String) (args : Option (List (String × Any))) (secure : Bool) (w : σ) :
    gs.apiCallEx (withStatus c T) methodName args secure w =
      match gs.apiCallEx T methodName args secure w with
      | (.ok r, w1) => (.ok { r with HttpCode := c }, w1)
      | (.error e, w1) => (.error e, w1) := by
  cases hm : jsonMarshal (gs.requestPayload methodName args) with
  | error err => simp only [GrooveShark.apiCallEx, hm]
  | ok body =>
    simp only [GrooveShark.apiCallEx, hm, withStatus]
    generalize T _ w = x
    obtain ⟨res, w1⟩ := x
    cases res <;> rfl

theorem StartSession_withStatus {σ : Type} (parse : String → Option JSON) (c : Int)
    (T : Transport σ) (gs : GrooveShark) (w : σ) :
    gs.StartSession parse (withStatus c T) w = gs.StartSession parse (withStatus 0 T) w := by
  simp only [GrooveShark.StartSession, GrooveShark.apiCallSecure, apiCallEx_withStatus]
  generalize gs.apiCallEx T "startSession" none true w = x
  obtain ⟨res, w1⟩ := x
  cases res <;> rfl

theorem Authenticate_withStatus {σ : Type} (parse : String → Option JSON) (c : Int)
    (T : Transport σ) (gs : GrooveShark) (login password : String) (w : σ) :
    gs.Authenticate parse (withStatus c T) login password w
      = gs.Authenticate parse (withStatus 0 T) login password w := by
  simp only [GrooveShark.Authenticate, StartSession_withStatus parse c T,
    GrooveShark.apiCallSecure, apiCallEx_withStatus]
  generalize (if goLen gs.sessionId = 0 then
      match gs.StartSession parse (withStatus 0 T) w with
      | (.error err, gs1, w1) => (some err, gs1, w1)
      | (.ok _, gs1, w1) => (none, gs1, w1)
    else (none, gs, w) : Option GoError × GrooveShark × σ) = st
  obtain ⟨e, gs1, w1⟩ := st
  cases e with
  | some err => rfl
  | none =>
    simp only
    generalize gs1.apiCallEx T "authenticate" _ true w1 = x
    obtain ⟨res, w2⟩ := x
    cases res <;> rfl

theorem Logout_withStatus {σ : Type} (parse : String → Option JSON) (c : Int)
    (T : Transport σ) (gs : GrooveShark) (w : σ) :
    gs.Logout parse (withStatus c T) w = gs.Logout parse (withStatus 0 T) w := by
  simp only [GrooveShark.Logout, GrooveShark.apiCallSecure, apiCallEx_withStatus]
  generalize gs.apiCallEx T "logout" none true w = x
  obtain ⟨res, w1⟩ := x
  cases res <;> rfl

theorem PingService_withStatus {σ : Type} (parse : String → Option JSON) (c : Int)
    (T : Transport σ) (gs : GrooveShark) (w : σ) :
    gs.PingService parse (withStatus c T) w = gs.PingService parse (withStatus 0 T) w := by
  simp only [GrooveShark.PingService, GrooveShark.apiCallSecure, apiCallEx_withStatus]
  generalize gs.apiCallEx T "pingService" none true w = x
  obtain ⟨res, w1⟩ := x
  cases res <;> rfl

theorem GetPlaylist_withStatus {σ : Type} (parse : String → Option JSON) (c : Int)
    (T : Transport σ) (gs : GrooveShark) (playlistID : String) (limit : Option Int) (w : σ) :
    gs.GetPlaylist parse (withStatus c T) playlistID limit w
      = gs.GetPlaylist parse (withStatus 0 T) playlistID limit w := by
  simp only [GrooveShark.GetPlaylist, GrooveShark.apiCall, apiCallEx_withStatus]
  generalize gs.apiCallEx T "getPlaylist" _ false w = x
  obtain ⟨res, w1⟩ := x
  cases res <;> rfl

theorem AddUserFavoriteSong_withStatus {σ : Type} (parse : String → Option JSON) (c : Int)
    (T : Transport σ) (gs : GrooveShark) (songId : Int) (w : σ) :
    gs.AddUserFavoriteSong parse (withStatus c T) songId w
      = gs.AddUserFavoriteSong parse (withStatus 0 T) songId w := by
  simp only [GrooveShark.AddUserFavoriteSong, GrooveShark.apiCall, apiCallEx_withStatus]
  generalize gs.apiCallEx T "addUserFavoriteSong" _ false w = x
  obtain ⟨res, w1⟩ := x
  cases res <;> rfl

theorem CreatePlaylist_withStatus {σ : Type} (parse : String → Option JSON) (c : Int)
    (T : Transport σ) (gs : GrooveShark) (playlistName : String) (songIds : Option (List Int))
    (w : σ) :
    gs.CreatePlaylist parse (withStatus c T) playlistName songIds w
      = gs.CreatePlaylist parse (withStatus 0 T) playlistName songIds w := by
  simp only [GrooveShark.CreatePlaylist, GrooveShark.apiCall, apiCallEx_withStatus]
  generalize gs.apiCallEx T "createPlaylist" _ false w = x
  obtain ⟨res, w1⟩ := x
  cases res <;> rfl

theorem DeletePlaylist_withStatus {σ : Type} (parse : String → Option JSON) (c : Int)
    (T : Transport σ) (gs : GrooveShark) (playlistId : Int) (w : σ) :
    gs.DeletePlaylist parse (withStatus c T) playlistId w
      = gs.DeletePlaylist parse (withStatus 0 T) playlistId w := by
  simp only [GrooveShark.DeletePlaylist, GrooveShark.apiCall, apiCallEx_withStatus]
  generalize gs.apiCallEx T "deletePlaylist" _ false w = x
  obtain ⟨res, w1⟩ := x
  cases res <;> rfl

/-- Claim C8: the HTTP status never decides the outcome.  For every body and status
codes `c1`, `c2`, `getError` gives the same verdict and report on both responses and
`unmarshal` decodes the same value; and every typed operation returns the same result,
error, client state and world over a transport whose responses report `c1` as over the
same transport reporting `c2`. -/
theorem status_never_decides (parse : String → Option JSON) (c1 c2 : Int) :
    (∀ body : String,
      (⟨c1, body⟩ : apiResponse).getError parse = (⟨c2, body⟩ : apiResponse).getError parse)
    ∧ (∀ (α : Type) (_ : GoType α) (body : String) (dest : α),
      (⟨c1, body⟩ : apiResponse).unmarshal parse dest
        = (⟨c2, body⟩ : apiResponse).unmarshal parse dest)
    ∧ (∀ (σ : Type) (T : Transport σ) (gs : GrooveShark) (w : σ),
      (∀ playlistID limit,
        gs.GetPlaylist parse (withStatus c1 T) playlistID limit w
          = gs.GetPlaylist parse (withStatus c2 T) playlistID limit w)
      ∧ gs.StartSession parse (withStatus c1 T) w = gs.StartSession parse (withStatus c2 T) w
      ∧ (∀ login password,
        gs.Authenticate parse (withStatus c1 T) login password w
          = gs.Authenticate parse (withStatus c2 T) login password w)
      ∧ gs.Logout parse (withStatus c1 T) w = gs.Logout parse (withStatus c2 T) w
      ∧ gs.PingService parse (withStatus c1 T) w = gs.PingService parse (withStatus c2 T) w
      ∧ (∀ songId,
        gs.AddUserFavoriteSong parse (withStatus c1 T) songId w
          = gs.AddUserFavoriteSong parse (withStatus c2 T) songId w)
      ∧ (∀ playlistName songIds,
        gs.CreatePlaylist parse (withStatus c1 T) playlistName songIds w
          = gs.CreatePlaylist parse (withStatus c2 T) playlistName songIds w)
      ∧ (∀ playlistId,
        gs.DeletePlaylist parse (withStatus c1 T) playlistId w
          = gs.DeletePlaylist parse (withStatus c2 T) playlistId w)) := by
  refine ⟨fun _ => rfl, fun _ _ _ _ => rfl, fun σ T gs w => ⟨?_, ?_, ?_, ?_, ?_, ?_, ?_, ?_⟩⟩
  · intro playlistID limit
    rw [GetPlaylist_withStatus parse c1, GetPlaylist_withStatus parse c2]
  · rw [StartSession_withStatus parse c1, StartSession_withStatus parse c2]
  · intro login password
    rw [Authenticate_withStatus parse c1, Authenticate_withStatus parse c2]
  · rw [Logout_withStatus parse c1, Logout_withStatus parse c2]
  · rw [PingService_withStatus parse c1, PingService_withStatus parse c2]
  · intro songId
    rw [AddUserFavoriteSong_withStatus parse c1, AddUserFavoriteSong_withStatus parse c2]
  · intro playlistName songIds
    rw [CreatePlaylist_withStatus parse c1, CreatePlaylist_withStatus parse c2]
  · intro playlistId
    rw [DeletePlaylist_withStatus parse c1, DeletePlaylist_withStatus parse c2]

/-! ### Session state -/

theorem StartSession_ok {σ : Type} (parse : String → Option JSON) (T : Transport σ)
    (gs : GrooveShark) (w : σ) (p : StringPtr) (gs1 : GrooveShark) (w1 : σ)
    (h : gs.StartSession parse T w = (.ok p, gs1, w1)) :
    ∃ resp : apiResponse,
      gs.apiCallSecure T "startSession" none w = (.ok resp, w1)
      ∧ resp.getError parse = none
      ∧ (resp.unmarshal parse (GoType.zero : SessionResponse)).Success = true
      ∧ gs1 = { gs with
          sessionId := (resp.unmarshal parse (GoType.zero : SessionResponse)).SessionId }
      ∧ p = StringPtr.sessionIdOf := by
  unfold GrooveShark.StartSession at h
  generalize hx : gs.apiCallSecure T "startSession" none w = x at h
  obtain ⟨res, w'⟩ := x
  cases res with
  | error err => simp at h
  | ok resp =>
    simp only at h
    cases hg : resp.getError parse with
    | some err =>
      rw [hg] at h
      simp at h
    | none =>
      rw [hg] at h
      simp only at h
      by_cases hs : (resp.unmarshal parse (GoType.zero : SessionResponse)).Success = true
      · simp only [hs, Bool.not_true, Bool.false_eq_true, if_false, Prod.mk.injEq,
          Except.ok.injEq] at h
        obtain ⟨hp, hgs, hw⟩ := h
        subst hw
        exact ⟨resp, rfl, hg, hs, hgs.symm, hp.symm⟩
      · simp [hs] at h

/-- Claim C4, amended: a client returned by `NewGrooveShark` has no session and its
envelopes carry `wsKey` only; after every `StartSession` that returns without error
the service answered without error entry and with `success = true`, the client's
`sessionId` equals the `sessionID` of the decoded response, the returned pointer
designates that field, keys are unchanged, and every envelope built in that state
carries `header.sessionID` equal to that id when the id is non-empty and carries no
`header.sessionID` when it is empty. -/
theorem session_lifecycle (parse : String → Option JSON) (σ : Type) (T : Transport σ) :
    (∀ (key secret methodName : String) (args : Option (List (String × Any))),
      (NewGrooveShark key secret).sessionId = ""
      ∧ ((NewGrooveShark key secret).requestPayload methodName args).Header
          = [("wsKey", Any.str key)])
    ∧ (∀ (gs : GrooveShark) (w : σ) (p : StringPtr) (gs1 : GrooveShark) (w1 : σ),
      gs.StartSession parse T w = (.ok p, gs1, w1) →
      ∃ resp : apiResponse,
        gs.apiCallSecure T "startSession" none w = (.ok resp, w1)
        ∧ resp.getError parse = none
        ∧ (resp.unmarshal parse (GoType.zero : SessionResponse)).Success = true
        ∧ gs1.sessionId = (resp.unmarshal parse (GoType.zero : SessionResponse)).SessionId
        ∧ p.deref gs1 = gs1.sessionId
        ∧ gs1.publicKey = gs.publicKey ∧ gs1.secretKey = gs.secretKey
        ∧ (∀ (methodName : String) (args : Option (List (String × Any))),
            (gs1.requestPayload methodName args).Header
              = [("wsKey", Any.str gs.publicKey)]
                ++ (if gs1.sessionId = "" then []
                    else [("sessionID", Any.str gs1.sessionId)]))) := by
  refine ⟨?_, ?_⟩
  · intro key secret methodName args
    refine ⟨rfl, ?_⟩
    rw [requestPayload_header]
    rfl
  · intro gs w p gs1 w1 h
    obtain ⟨resp, hcall, herr, hsucc, hgs, hp⟩ := StartSession_ok parse T gs w p gs1 w1 h
    subst hgs hp
    refine ⟨resp, hcall, herr, hsucc, rfl, rfl, rfl, rfl, ?_⟩
    intro methodName args
    rw [requestPayload_header]

set_option maxRecDepth 100000 in
/-- Counterexample to C4 as stated: the service answers `success: true` with an empty
`sessionID`; `StartSession` returns without error, the client's `sessionId` is empty,
and the next envelope carries no `header.sessionID`. -/
theorem session_lifecycle_counterexample :
    (testClient.StartSession parseJSON (mock200 bodySessionEmpty) []).1
      = .ok StringPtr.sessionIdOf
    ∧ (testClient.StartSession parseJSON (mock200 bodySessionEmpty) []).2.1.sessionId = ""
    ∧ ((testClient.StartSession parseJSON (mock200 bodySessionEmpty) []).2.1.requestPayload
        "pingService" none).Header.lookup "sessionID" = none := by
  refine ⟨by rfl, by rfl, by rfl⟩

set_option maxRecDepth 100000 in
/-- Witness of C4 as amended: the service answers `success: true` and `sessionID: abc`;
the envelopes built afterwards carry that id. -/
theorem session_lifecycle_witness :
    ∃ resp : apiResponse,
      testClient.apiCallSecure (mock200 bodySessionAbc) "startSession" none []
        = (.ok resp, [startSessionRequest])
      ∧ resp.getError parseJSON = none
      ∧ (resp.unmarshal parseJSON (GoType.zero : SessionResponse)).Success = true
      ∧ testClientInSession.sessionId
          = (resp.unmarshal parseJSON (GoType.zero : SessionResponse)).SessionId
      ∧ StringPtr.sessionIdOf.deref testClientInSession = testClientInSession.sessionId
      ∧ testClientInSession.publicKey = testClient.publicKey
      ∧ testClientInSession.secretKey = testClient.secretKey
      ∧ (∀ (methodName : String) (args : Option (List (String × Any))),
          (testClientInSession.requestPayload methodName args).Header
            = [("wsKey", Any.str testClient.publicKey)]
              ++ (if testClientInSession.sessionId = "" then []
                  else [("sessionID", Any.str testClientInSession.sessionId)])) :=
  (session_lifecycle parseJSON (List HttpRequest) (mock200 bodySessionAbc)).2
    testClient [] StringPtr.sessionIdOf testClientInSession [startSessionRequest] (by rfl)

/-! ### The `success` flag: operations over a mocked transport -/

theorem CreatePlaylist_service_error (parse : String → Option JSON) (gs : GrooveShark)
    (playlistName : String) (songIds : Option (List Int)) (r : HttpResponse)
    (log : List HttpRequest) (err : GoError)
    (herr : (⟨r.StatusCode, r.Body⟩ : apiResponse).getError parse = some err) :
    (gs.CreatePlaylist parse (mockTransport (.ok r)) playlistName songIds log).1
      = .error err := by
  obtain ⟨req, hreq, -⟩ := apiCallEx_mock_ok r gs "createPlaylist" _ false log
    (supported_createPlaylist playlistName songIds)
  simp only [GrooveShark.CreatePlaylist, GrooveShark.apiCall, hreq, herr]

set_option maxRecDepth 100000 in
/-- Claim C10 at the failing input: on a body without error entry whose result is
`success: false`, `Logout` returns a nil error, while `AddUserFavoriteSong` on the same
body returns its domain error. -/
theorem Logout_skips_success_flag :
    (⟨200, bodySuccessFalse⟩ : apiResponse).getError parseJSON = none
    ∧ ((⟨200, bodySuccessFalse⟩ : apiResponse).unmarshal parseJSON
        (GoType.zero : EmptyResponse)).Success = false
    ∧ (testClientInSession.Logout parseJSON (mock200 bodySuccessFalse) []).1 = none
    ∧ (testClientInSession.AddUserFavoriteSong parseJSON (mock200 bodySuccessFalse)
        30717514 []).1 = some (GoError.errorString "Error adding favorite song") := by
  refine ⟨by rfl, by rfl, by rfl, by rfl⟩

end GoGrooveShark
